import Mathlib

/-!
Verification of the RAGExplorer evaluation pipeline (backEnd).

This file gives a shallow embedding, in Lean 4, of the pure computational
core of the repository:

* `rag_utils/json_parser.py` — the tolerant JSON/Python-literal parsing
  ladder (`parse_json_safely` and its two hand-written quote-repair
  scanners `_fix_unescaped_quotes` and `_convert_python_dict_to_json`);
* `rag_utils/response_parser.py` — `parse_rag_response`;
* `rag_utils/error_analysis.py` — the `analyze_error_type` decision
  cascade;
* `rag_utils/evidence_analyzer.py` — `check_evidence_retrieval` (hit
  counts, Average Precision, reciprocal rank);
* `workflow.py` — the sequential/concurrent results-array fill logic of
  `_test_rag_sequential` / `_test_rag_concurrent` and the metric
  aggregation loop of `batch_evaluate_configuration`;
* `rag.py` — the context/backup partition step of `rag_workflow`.

Modelling conventions.

* Python values that can come out of the parsing ladder are modelled by
  the inductive type `PyVal` (strings, integers, booleans, `None`, lists
  and string-keyed dicts).  JSON fractional numbers, `\u` escapes and
  non-string dict keys are outside the model of the standard-library
  collaborators `json.loads` / `ast.literal_eval`; every theorem below
  only constrains inputs through the *result* of the modelled parse, so
  the restriction does not weaken any statement.
* Machine floats of the source are modelled as exact rationals (`ℚ`).
  The only numeric literal compared against is `0.7 = 7/10`, which is
  handled identically by IEEE doubles and by `ℚ` at every input that the
  relevant claims quantify over.
* The scanner `_convert_python_dict_to_json` does not terminate on some
  inputs (its main loop does not advance the index when a single-quoted
  string head has no terminating quote), so every function that can
  reach it takes an explicit `fuel : Nat`; a `none` result at that outer
  layer means "the source code does not terminate within `fuel` loop
  steps".  All other loops of the source terminate; they are written
  with internally supplied fuel that is larger than the number of steps
  they can take, so the fallback branches are unreachable.
* External services (the generation LLM, the judgment oracle, the
  vector index) are modelled as explicit inputs: the error classifier's
  step-4b LLM verdict is an `Option String` argument (`none` = the call
  raised), and the vector store is a concrete corpus of
  (id, text, title) records whose `get` does the exact
  substring-plus-optional-title filtering that
  `check_evidence_retrieval` invokes.
-/

/-- Model of a Python value as produced by the parsing ladder
(`json.loads` / `ast.literal_eval` results): strings, ints, booleans,
`None`, lists, and dicts with string keys. -/
inductive PyVal where
  | str (s : String)
  | int (n : Int)
  | bool (b : Bool)
  | null
  | list (xs : List PyVal)
  | dict (entries : List (String × PyVal))
  deriving Inhabited

/-- Python truthiness (`bool(x)`) for the modelled values. -/
def pyTruthy : PyVal → Bool
  | .str s => s ≠ ""
  | .int n => n ≠ 0
  | .bool b => b
  | .null => false
  | .list xs => !xs.isEmpty
  | .dict es => !es.isEmpty

mutual

/-- Model of Python `repr` on the modelled values (string escaping inside
`repr` of nested strings is not reproduced; no claim depends on it). -/
def pyRepr : PyVal → String
  | .str s => "'" ++ s ++ "'"
  | .int n => toString n
  | .bool b => if b then "True" else "False"
  | .null => "None"
  | .list xs => "[" ++ String.intercalate ", " (pyReprList xs) ++ "]"
  | .dict es => "\x7b" ++ String.intercalate ", " (pyReprEntries es) ++ "\x7d"

/-- `repr` of each element of a list. -/
def pyReprList : List PyVal → List String
  | [] => []
  | x :: xs => pyRepr x :: pyReprList xs

/-- `repr` of each `key: value` entry of a dict. -/
def pyReprEntries : List (String × PyVal) → List String
  | [] => []
  | (k, v) :: es => ("'" ++ k ++ "': " ++ pyRepr v) :: pyReprEntries es

end

/-- Model of Python `str(x)`: strings are returned as-is, containers fall
back to `repr`. -/
def pyStr : PyVal → String
  | .str s => s
  | v => pyRepr v

/-- Python `dict.get`: the value stored at `k`, where a later duplicate
key overwrites an earlier one (as in a Python dict built by insertion in
order), or `none` if the key is absent. -/
def dictGet (es : List (String × PyVal)) (k : String) : Option PyVal :=
  es.foldl (fun acc e => if e.1 = k then some e.2 else acc) none

/-- Python `k in dict`. -/
def dictHasKey (es : List (String × PyVal)) (k : String) : Bool :=
  (dictGet es k).isSome

/-- `needle` is a leading segment of `hay` (character lists). -/
def leadSegment : List Char → List Char → Bool
  | [], _ => true
  | _ :: _, [] => false
  | a :: n, b :: h => a = b && leadSegment n h

/-- Python's substring test `needle in hay` on character lists. -/
def hasSegment (needle : List Char) : List Char → Bool
  | [] => leadSegment needle []
  | c :: h => leadSegment needle (c :: h) || hasSegment needle h

/-- Python `needle in hay` for strings. -/
def strContains (hay needle : String) : Bool :=
  hasSegment needle.data hay.data

theorem strContains_nil (hay : String) : strContains hay "" = true := by
  unfold strContains
  induction hay.data with
  | nil => rfl
  | cons c h ih => simp [hasSegment, leadSegment]

/-- Python `str.lower()` (per-character ASCII lowering). -/
def strToLower (s : String) : String :=
  String.mk (s.data.map Char.toLower)

/-- The whitespace characters stripped by Python `str.strip()`. -/
def isPyWs (c : Char) : Bool :=
  c = ' ' || c = '\t' || c = '\n' || c = '\r' || c = '\x0b' || c = '\x0c'

/-- Python `str.strip()`. -/
def strTrim (s : String) : String :=
  String.mk (((s.data.dropWhile isPyWs).reverse.dropWhile isPyWs).reverse)

/-- Python slice `s[n:]` (by characters). -/
def strDrop (s : String) (n : Nat) : String :=
  String.mk (s.data.drop n)

/-- Python slice `s[:-n]` (by characters). -/
def strDropRight (s : String) (n : Nat) : String :=
  String.mk (s.data.take (s.data.length - n))

/-- Python `s.startswith(p)`. -/
def strStarts (s p : String) : Bool :=
  leadSegment p.data s.data

/-- Python `s.endswith(p)`. -/
def strEnds (s p : String) : Bool :=
  leadSegment p.data.reverse s.data.reverse

/-- Python `s.replace(needle, repl)` on character lists (all
non-overlapping occurrences, left to right; the fuel is the input
length, which bounds the number of steps).  Empty needles are outside
the model (never used by the source). -/
def replaceSeg (needle repl : List Char) : Nat → List Char → List Char
  | _, [] => []
  | 0, l => l
  | fuel+1, c :: rest =>
    if !needle.isEmpty && leadSegment needle (c :: rest) then
      repl ++ replaceSeg needle repl fuel ((c :: rest).drop needle.length)
    else c :: replaceSeg needle repl fuel rest

/-- Python `s.replace(needle, repl)`. -/
def strReplace (s needle repl : String) : String :=
  String.mk (replaceSeg needle.data repl.data s.data.length s.data)

/-- `content.replace('"', '\\"')` of the convert scanner, on character
lists. -/
def replaceDQ (l : List Char) : List Char :=
  l.foldr (fun c acc => if c = '"' then '\\' :: '"' :: acc else c :: acc) []

/-- The four whitespace characters that the quote-repair scanners of
`json_parser.py` skip over (`[' ', '\n', '\t', '\r']`). -/
def isWs4 (c : Char) : Bool :=
  c = ' ' || c = '\n' || c = '\t' || c = '\r'

/-- The three whitespace characters skipped at two places of
`_convert_python_dict_to_json` (`[' ', '\n', '\t']` — no `'\r'`). -/
def isWs3 (c : Char) : Bool :=
  c = ' ' || c = '\n' || c = '\t'

/-! ### Model of the standard-library collaborator `json.loads` -/

/-- Drop leading JSON whitespace. -/
def skipWsChars : List Char → List Char
  | [] => []
  | c :: cs => if isWs4 c then skipWsChars cs else c :: cs

/-- Body of a JSON string after the opening `"`; returns the decoded
string and the rest of the input.  `\u` escapes are outside the model. -/
def jsonStringBody : List Char → List Char → Option (String × List Char)
  | [], _ => none
  | c :: rest, acc =>
    if c = '"' then some (String.mk acc.reverse, rest)
    else if c = '\\' then
      match rest with
      | [] => none
      | e :: rest2 =>
        if e = '"' then jsonStringBody rest2 ('"' :: acc)
        else if e = '\\' then jsonStringBody rest2 ('\\' :: acc)
        else if e = '/' then jsonStringBody rest2 ('/' :: acc)
        else if e = 'n' then jsonStringBody rest2 ('\n' :: acc)
        else if e = 't' then jsonStringBody rest2 ('\t' :: acc)
        else if e = 'r' then jsonStringBody rest2 ('\r' :: acc)
        else if e = 'b' then jsonStringBody rest2 ('\x08' :: acc)
        else if e = 'f' then jsonStringBody rest2 ('\x0c' :: acc)
        else none
    else jsonStringBody rest (c :: acc)

/-- Scan a non-empty run of decimal digits into a `Nat`. -/
def scanDigits : List Char → Nat → Nat × List Char
  | [], acc => (acc, [])
  | c :: cs, acc =>
    if c.isDigit then scanDigits cs (acc * 10 + (c.toNat - 48)) else (acc, c :: cs)

/-- Integer tail of a JSON number (first char must already be a digit);
fractional and exponent forms are outside the model. -/
def jsonIntTail (cs : List Char) : Option (Nat × List Char) :=
  let p := scanDigits cs 0
  match p.2 with
  | [] => some p
  | c :: _ =>
    if c = '.' || c = 'e' || c = 'E' then none else some p

mutual

/-- A JSON value (restricted model of `json.loads` grammar). -/
def jsonVal : Nat → List Char → Option (PyVal × List Char)
  | 0, _ => none
  | fuel+1, cs =>
    match skipWsChars cs with
    | [] => none
    | c :: rest =>
      if c = '\x7b' then jsonObjBody fuel rest
      else if c = '[' then jsonArrBody fuel rest
      else if c = '"' then (jsonStringBody rest []).map (fun p => (PyVal.str p.1, p.2))
      else if c = '-' then
        match rest with
        | d :: _ =>
          if d.isDigit then (jsonIntTail rest).map (fun p => (PyVal.int (-(p.1 : Int)), p.2))
          else none
        | [] => none
      else if c.isDigit then (jsonIntTail (c :: rest)).map (fun p => (PyVal.int (p.1 : Int), p.2))
      else if leadSegment "true".data (c :: rest) then some (PyVal.bool true, (c :: rest).drop 4)
      else if leadSegment "false".data (c :: rest) then some (PyVal.bool false, (c :: rest).drop 5)
      else if leadSegment "null".data (c :: rest) then some (PyVal.null, (c :: rest).drop 4)
      else none

/-- Just after `{`: empty object or first member. -/
def jsonObjBody : Nat → List Char → Option (PyVal × List Char)
  | 0, _ => none
  | fuel+1, cs =>
    match skipWsChars cs with
    | [] => none
    | c :: rest =>
      if c = '\x7d' then some (PyVal.dict [], rest)
      else jsonObjItems fuel (c :: rest) []

/-- Members of a JSON object, accumulated in order. -/
def jsonObjItems : Nat → List Char → List (String × PyVal) → Option (PyVal × List Char)
  | 0, _, _ => none
  | fuel+1, cs, acc =>
    match skipWsChars cs with
    | '"' :: rest =>
      match jsonStringBody rest [] with
      | none => none
      | some (k, r1) =>
        match skipWsChars r1 with
        | ':' :: r2 =>
          match jsonVal fuel r2 with
          | none => none
          | some (v, r3) =>
            match skipWsChars r3 with
            | ',' :: r4 => jsonObjItems fuel r4 ((k, v) :: acc)
            | '\x7d' :: r4 => some (PyVal.dict ((k, v) :: acc).reverse, r4)
            | _ => none
        | _ => none
    | _ => none

/-- Just after `[`: empty array or first element. -/
def jsonArrBody : Nat → List Char → Option (PyVal × List Char)
  | 0, _ => none
  | fuel+1, cs =>
    match skipWsChars cs with
    | [] => none
    | c :: rest =>
      if c = ']' then some (PyVal.list [], rest)
      else jsonArrItems fuel (c :: rest) []

/-- Elements of a JSON array, accumulated in order. -/
def jsonArrItems : Nat → List Char → List PyVal → Option (PyVal × List Char)
  | 0, _, _ => none
  | fuel+1, cs, acc =>
    match jsonVal fuel cs with
    | none => none
    | some (v, r1) =>
      match skipWsChars r1 with
      | ',' :: r2 => jsonArrItems fuel r2 (v :: acc)
      | ']' :: r2 => some (PyVal.list (v :: acc).reverse, r2)
      | _ => none

end

/-- Model of Python `json.loads` (stdlib collaborator of
`json_parser.py`): parse one JSON value; trailing non-whitespace is an
error.  The internal fuel strictly exceeds the number of parsing steps
any input of this length can take. -/
def json_loads (s : String) : Option PyVal :=
  match jsonVal (8 * s.length + 32) s.data with
  | some (v, rest) => if (skipWsChars rest).isEmpty then some v else none
  | none => none

/-! ### Model of the standard-library collaborator `ast.literal_eval` -/

/-- Body of a Python string literal after its opening quote `q`.
Unknown escapes keep the backslash, as in Python. -/
def pyStringBody (q : Char) : List Char → List Char → Option (String × List Char)
  | [], _ => none
  | c :: rest, acc =>
    if c = q then some (String.mk acc.reverse, rest)
    else if c = '\\' then
      match rest with
      | [] => none
      | e :: rest2 =>
        if e = 'n' then pyStringBody q rest2 ('\n' :: acc)
        else if e = 't' then pyStringBody q rest2 ('\t' :: acc)
        else if e = 'r' then pyStringBody q rest2 ('\r' :: acc)
        else if e = '\\' then pyStringBody q rest2 ('\\' :: acc)
        else if e = '\'' then pyStringBody q rest2 ('\'' :: acc)
        else if e = '"' then pyStringBody q rest2 ('"' :: acc)
        else pyStringBody q rest2 (e :: '\\' :: acc)
    else pyStringBody q rest (c :: acc)

mutual

/-- A Python literal (restricted model of the `ast.literal_eval`
grammar: strings with either quote, ints, `True`/`False`/`None`, lists,
and dicts with string keys). -/
def astVal : Nat → List Char → Option (PyVal × List Char)
  | 0, _ => none
  | fuel+1, cs =>
    match skipWsChars cs with
    | [] => none
    | c :: rest =>
      if c = '\x7b' then astObjBody fuel rest
      else if c = '[' then astArrBody fuel rest
      else if c = '"' then (pyStringBody '"' rest []).map (fun p => (PyVal.str p.1, p.2))
      else if c = '\'' then (pyStringBody '\'' rest []).map (fun p => (PyVal.str p.1, p.2))
      else if c = '-' then
        match rest with
        | d :: _ =>
          if d.isDigit then (jsonIntTail rest).map (fun p => (PyVal.int (-(p.1 : Int)), p.2))
          else none
        | [] => none
      else if c.isDigit then (jsonIntTail (c :: rest)).map (fun p => (PyVal.int (p.1 : Int), p.2))
      else if leadSegment "True".data (c :: rest) then some (PyVal.bool true, (c :: rest).drop 4)
      else if leadSegment "False".data (c :: rest) then some (PyVal.bool false, (c :: rest).drop 5)
      else if leadSegment "None".data (c :: rest) then some (PyVal.null, (c :: rest).drop 4)
      else none

/-- Just after `{` in a Python literal. -/
def astObjBody : Nat → List Char → Option (PyVal × List Char)
  | 0, _ => none
  | fuel+1, cs =>
    match skipWsChars cs with
    | [] => none
    | c :: rest =>
      if c = '\x7d' then some (PyVal.dict [], rest)
      else astObjItems fuel (c :: rest) []

/-- Members of a Python dict literal (string keys only in the model). -/
def astObjItems : Nat → List Char → List (String × PyVal) → Option (PyVal × List Char)
  | 0, _, _ => none
  | fuel+1, cs, acc =>
    match skipWsChars cs with
    | '"' :: rest => astObjItemTail fuel (pyStringBody '"' rest []) acc
    | '\'' :: rest => astObjItemTail fuel (pyStringBody '\'' rest []) acc
    | _ => none

/-- After a dict key was read: `: value` then `,` or `}`. -/
def astObjItemTail : Nat → Option (String × List Char) →
    List (String × PyVal) → Option (PyVal × List Char)
  | 0, _, _ => none
  | _, none, _ => none
  | fuel+1, some (k, r1), acc =>
    match skipWsChars r1 with
    | ':' :: r2 =>
      match astVal fuel r2 with
      | none => none
      | some (v, r3) =>
        match skipWsChars r3 with
        | ',' :: r4 => astObjItems fuel r4 ((k, v) :: acc)
        | '\x7d' :: r4 => some (PyVal.dict ((k, v) :: acc).reverse, r4)
        | _ => none
    | _ => none

/-- Just after `[` in a Python literal. -/
def astArrBody : Nat → List Char → Option (PyVal × List Char)
  | 0, _ => none
  | fuel+1, cs =>
    match skipWsChars cs with
    | [] => none
    | c :: rest =>
      if c = ']' then some (PyVal.list [], rest)
      else astArrItems fuel (c :: rest) []

/-- Elements of a Python list literal. -/
def astArrItems : Nat → List Char → List PyVal → Option (PyVal × List Char)
  | 0, _, _ => none
  | fuel+1, cs, acc =>
    match astVal fuel cs with
    | none => none
    | some (v, r1) =>
      match skipWsChars r1 with
      | ',' :: r2 => astArrItems fuel r2 (v :: acc)
      | ']' :: r2 => some (PyVal.list (v :: acc).reverse, r2)
      | _ => none

end

/-- Model of Python `ast.literal_eval` (stdlib collaborator of
`json_parser.py`) on the restricted literal grammar above. -/
def ast_literal_eval (s : String) : Option PyVal :=
  match astVal (8 * s.length + 32) s.data with
  | some (v, rest) => if (skipWsChars rest).isEmpty then some v else none
  | none => none

/-! ### `json_parser._fix_unescaped_quotes` -/

/-- Backward scan of `_fix_unescaped_quotes`: largest index `≤ j` holding
a non-whitespace character, if any (`prev_char_idx` loop of the source). -/
def prevNonWs (cs : Array Char) : Nat → Option Nat
  | 0 => if isWs4 (cs.getD 0 ' ') then none else some 0
  | j+1 => if isWs4 (cs.getD (j+1) ' ') then prevNonWs cs j else some (j+1)

/-- Fueled core of the forward whitespace skips (structural recursion on
the fuel so that the kernel can evaluate it; the wrappers below supply
fuel `cs.size + 1`, which always suffices since every step advances the
index). -/
def skipFwdGo (cs : Array Char) (ws : Char → Bool) : Nat → Nat → Nat
  | 0, n => n
  | fuel+1, n =>
    if n < cs.size && ws (cs.getD n ' ') then skipFwdGo cs ws fuel (n + 1) else n

/-- Forward whitespace skip over `[' ', '\n', '\t', '\r']`
(`next_char_idx` loops of the source). -/
def skipFwd4 (cs : Array Char) (n : Nat) : Nat :=
  skipFwdGo cs isWs4 (cs.size + 1) n

/-- Forward whitespace skip over `[' ', '\n', '\t']`
(the two skips inside `_convert_python_dict_to_json`'s main loop). -/
def skipFwd3 (cs : Array Char) (n : Nat) : Nat :=
  skipFwdGo cs isWs3 (cs.size + 1) n

/-- The characters `[',', '}', ']', '\n']` that terminate a candidate
string in both quote-repair scanners. -/
def isCloseFollower (c : Char) : Bool :=
  c = ',' || c = '\x7d' || c = ']' || c = '\n'

/-- The characters `[':', ',', '[', '{']` that may precede a repairable
double quote in `_fix_unescaped_quotes`. -/
def isKeyLead (c : Char) : Bool :=
  c = ':' || c = ',' || c = '[' || c = '\x7b'

/-- Inner `while` loop of `_fix_unescaped_quotes` (inside a candidate
double-quoted value): returns the index after the loop and the output
accumulated so far.  `none` = out of fuel (unreachable: every step
advances the index). -/
def fixInner (cs : Array Char) : Nat → Nat → List Char → Option (Nat × List Char)
  | 0, _, _ => none
  | fuel+1, i, acc =>
    if i < cs.size then
      let c := cs.getD i ' '
      if c = '"' then
        if decide (i > 0) && (cs.getD (i-1) ' ' = '\\') then
          fixInner cs fuel (i+1) (acc ++ ['\\', '"'])
        else
          let nxt := skipFwd4 cs (i+1)
          if decide (nxt ≥ cs.size) || isCloseFollower (cs.getD nxt ' ') then
            some (i+1, acc ++ ['"'])
          else fixInner cs fuel (i+1) (acc ++ ['\\', '"'])
      else if c = '\\' then
        if i + 1 < cs.size then fixInner cs fuel (i+2) (acc ++ ['\\', cs.getD (i+1) ' '])
        else fixInner cs fuel (i+1) (acc ++ ['\\'])
      else fixInner cs fuel (i+1) (acc ++ [c])
    else some (i, acc)

/-- Outer `while` loop of `_fix_unescaped_quotes`. -/
def fixOuter (cs : Array Char) : Nat → Nat → List Char → Option (List Char)
  | 0, _, _ => none
  | fuel+1, i, acc =>
    if i < cs.size then
      let c := cs.getD i ' '
      if c = '"' && decide (i > 0) &&
          (match prevNonWs cs (i-1) with
           | some p => isKeyLead (cs.getD p ' ')
           | none => false) then
        match fixInner cs fuel (i+1) (acc ++ ['"']) with
        | none => none
        | some (i2, acc2) => fixOuter cs fuel i2 acc2
      else fixOuter cs fuel (i+1) (acc ++ [c])
    else some acc

/-- `_fix_unescaped_quotes` of `json_parser.py`.  The internal fuel
strictly exceeds the number of loop iterations (each iteration advances
the index), so the fallback arm is unreachable. -/
def fix_unescaped_quotes (s : String) : String :=
  let cs := s.data.toArray
  match fixOuter cs (2 * cs.size + 8) 0 [] with
  | some acc => String.mk acc
  | none => s

/-! ### `json_parser._convert_python_dict_to_json` -/

/-- `find_string_end` helper of `_convert_python_dict_to_json`: position
of the closing quote of the string opened at `startIdx`, where a
candidate closing quote counts only if followed (after whitespace) by
`, } ] \n` or the end of input. -/
def findStringEndGo (cs : Array Char) (startIdx : Nat) (q : Char) : Nat → Nat → Option Nat
  | 0, _ => none
  | fuel+1, idx =>
    if idx < cs.size then
      let c := cs.getD idx ' '
      if c = q then
        if decide (idx > startIdx + 1) && (cs.getD (idx - 1) ' ' = '\\') then
          findStringEndGo cs startIdx q fuel (idx + 1)
        else
          let nxt := skipFwd4 cs (idx + 1)
          if decide (nxt ≥ cs.size) || isCloseFollower (cs.getD nxt ' ') then some idx
          else findStringEndGo cs startIdx q fuel (idx + 1)
      else findStringEndGo cs startIdx q fuel (idx + 1)
    else none

/-- `find_string_end(start_idx, quote_char)` starts scanning at
`start_idx + 1`; the fuel `cs.size + 1` always suffices since every step
advances the index. -/
def findStringEnd (cs : Array Char) (startIdx : Nat) (q : Char) : Option Nat :=
  findStringEndGo cs startIdx q (cs.size + 1) (startIdx + 1)

/-- The characters `['{', ',', ':', ' ', '\n', '\t', '[']` that may
precede a convertible single quote in `_convert_python_dict_to_json`. -/
def isQuoteLead (c : Char) : Bool :=
  c = '\x7b' || c = ',' || c = ':' || c = ' ' || c = '\n' || c = '\t' || c = '['

/-- Python slice `s[a:b]` on a character array. -/
def charsExtract (cs : Array Char) (a b : Nat) : List Char :=
  (cs.toList.drop a).take (b - a)

/-- Main loop of `_convert_python_dict_to_json`.  The fuel here is the
genuine termination bound exposed to callers: when the scanner meets a
single quote in key position whose string has no terminating quote,
`find_string_end` returns `None` and the source loop repeats the same
state forever (the index is not advanced on that path), which this model
expresses as `none` for every fuel. -/
def convertLoop (cs : Array Char) : Nat → Nat → Bool → Char → List Char → Option (List Char)
  | 0, _, _, _, _ => none
  | fuel+1, i, inStr, q, acc =>
    if i < cs.size then
      let c := cs.getD i ' '
      if !inStr then
        if c = '\'' && (decide (i = 0) || isQuoteLead (cs.getD (i-1) ' ')) then
          match findStringEnd cs i '\'' with
          | some keyEnd =>
            -- the source distinguishes key position (next non-ws is ':')
            -- from value position, but both branches do the same thing
            let content := replaceDQ (charsExtract cs (i+1) keyEnd)
            convertLoop cs fuel (keyEnd+1) false q (acc ++ ('"' :: content) ++ ['"'])
          | none => convertLoop cs fuel i false q acc
        else if c = '"' then convertLoop cs fuel (i+1) true '"' (acc ++ [c])
        else convertLoop cs fuel (i+1) false q (acc ++ [c])
      else
        if c = '\\' && decide (i + 1 < cs.size) then
          convertLoop cs fuel (i+2) true q (acc ++ [c, cs.getD (i+1) ' '])
        else if c = q then convertLoop cs fuel (i+1) false q (acc ++ [c])
        else convertLoop cs fuel (i+1) true q (acc ++ [c])
    else some acc

/-- `_convert_python_dict_to_json` of `json_parser.py`, with explicit
fuel (`none` = the source does not terminate within `fuel` steps). -/
def convert_python_dict_to_json (fuel : Nat) (s : String) : Option String :=
  (convertLoop s.data.toArray fuel 0 false '"' []).map String.mk

/-! ### `json_parser.parse_json_safely` and
`response_parser.parse_rag_response` -/

/-- Code-fence cleaning prologue of `parse_json_safely`. -/
def cleanCodeFence (raw : String) : String :=
  let c0 := strTrim raw
  let c1 :=
    if strStarts c0 "```json" then strDrop c0 7
    else if strStarts c0 "```" then strDrop c0 3
    else c0
  let c2 := if strEnds c1 "```" then strDropRight c1 3 else c1
  strTrim c2

/-- `parse_json_safely` of `json_parser.py` on string input.  Outer
`none` = the call does not terminate (the stage-(e) scanner loops);
`some none` = every stage failed, the source returns `None`;
`some (some v)` = some stage produced the value `v`. -/
def parse_json_safely (fuel : Nat) (raw_response : String) : Option (Option PyVal) :=
  let cleaned := cleanCodeFence raw_response
  if cleaned = "" then some none
  else
    match json_loads cleaned with
    | some v => some (some v)
    | none =>
      match ast_literal_eval cleaned with
      | some (PyVal.dict d) => some (some (PyVal.dict d))
      | _ =>
        -- a non-dict literal raises ValueError, caught like a parse error
        let fixed := fix_unescaped_quotes cleaned
        let afterFix : Option PyVal :=
          if fixed ≠ cleaned then
            match ast_literal_eval fixed with
            | some (PyVal.dict d) => some (PyVal.dict d)
            | _ => none
          else none
        match afterFix with
        | some v => some (some v)
        | none =>
          match convert_python_dict_to_json fuel cleaned with
          | none => none
          | some conv =>
            match json_loads conv with
            | some v => some (some v)
            | none => some none

/-- `parse_rag_response` of `response_parser.py` on string input.  Outer
`none` = the underlying parse does not terminate.  The second component
is the `supporting_sentences` list (elements are kept as parsed; a
non-list value is coerced to a singleton of its `str()` when truthy). -/
def parse_rag_response (fuel : Nat) (raw_response : String) : Option (String × List PyVal) :=
  match parse_json_safely fuel raw_response with
  | none => none
  | some none => some (raw_response, [])
  | some (some v) =>
    match v with
    | PyVal.dict d =>
      let ss := (dictGet d "supporting_sentences").getD (PyVal.list [])
      let fa := (dictGet d "final_answer").getD (PyVal.str raw_response)
      let ssList : List PyVal :=
        match ss with
        | PyVal.list xs => xs
        | x => if pyTruthy x then [PyVal.str (pyStr x)] else []
      let faStr : String :=
        match fa with
        | PyVal.str s => s
        | x => if pyTruthy x then pyStr x else ""
      some (faStr, ssList)
    | _ => some (raw_response, [])

/-! ### `error_analysis.analyze_error_type` -/

/-- The error labels assigned by `analyze_error_type` (the `error_type`
field of its result; descriptions are not modelled). -/
inductive ErrorType where
  | correct
  | missing_content
  | wrong_format
  | incomplete
  | missed_top_ranked_documents
  | not_in_context
  | not_extracted
  | incorrect_specificity
  | unknown
  deriving DecidableEq, Repr

/-- The `hit_counts` record of an evidence-retrieval analysis
(`context_hits`, `backup_hits`, `total_evidence`). -/
structure HitCounts where
  context_hits : Int
  backup_hits : Int
  total_evidence : Int
  deriving DecidableEq, Repr

/-- `retrieval_coverage_ratio = total_hits / total_evidence` as computed
in step 3 of `analyze_error_type`. -/
def retrievalCoverageRatio (hc : HitCounts) : ℚ :=
  ((hc.context_hits : ℚ) + (hc.backup_hits : ℚ)) / (hc.total_evidence : ℚ)

/-- `context_coverage_ratio = context_hits / total_evidence` as computed
in step 3 of `analyze_error_type`. -/
def contextCoverageRatio (hc : HitCounts) : ℚ :=
  (hc.context_hits : ℚ) / (hc.total_evidence : ℚ)

/-- Step 4a guard of `analyze_error_type`: hit counts are present,
`total_evidence > 0` and all evidence-bearing documents were in context. -/
def deterministicNotExtracted (hit_counts : Option HitCounts) : Bool :=
  match hit_counts with
  | some hc => hc.total_evidence > 0 && hc.context_hits == hc.total_evidence
  | none => false

/-- The verdict post-processing of step 4b:
`.strip().lower().replace("(fp4)","").replace("(fp6)","").replace("(fp7)","").strip()`. -/
def normalizeVerdict (v : String) : String :=
  strTrim (strReplace (strReplace (strReplace (strToLower (strTrim v)) "(fp4)" "") "(fp6)" "") "(fp7)" "")

/-- Mapping of an LLM verdict text to a label (step 4b: only the two
expected tokens are trusted; anything else falls to `unknown`). -/
def verdictLabel (v : String) : ErrorType :=
  if normalizeVerdict v = "incorrect_specificity" then .incorrect_specificity
  else if normalizeVerdict v = "incomplete" then .incomplete
  else .unknown

/-- Steps 4–5 of `analyze_error_type` (generation pipeline errors and
final fallback).  `llm_verdict` is the raw text of the external
classifier call, `none` when the call raised. -/
def generationStage (hit_counts : Option HitCounts) (llm_verdict : Option String) : ErrorType :=
  if deterministicNotExtracted hit_counts then .not_extracted
  else
    match llm_verdict with
    | none => .unknown
    | some v => verdictLabel v

/-- Step 3 of `analyze_error_type` (retrieval pipeline errors), falling
through to steps 4–5 when no retrieval rule fires. -/
def retrievalStage (hit_counts : Option HitCounts) (llm_verdict : Option String) : ErrorType :=
  match hit_counts with
  | some hc =>
    if hc.total_evidence > 0 then
      if retrievalCoverageRatio hc < 7/10 then .missed_top_ranked_documents
      else if contextCoverageRatio hc < 7/10 then .not_in_context
      else generationStage hit_counts llm_verdict
    else generationStage hit_counts llm_verdict
  | none => generationStage hit_counts llm_verdict

/-- Step 2b of `analyze_error_type` (FP5 / FP7 structural checks on the
parsed raw response), falling through to the retrieval stage. -/
def formatStage (response_data : Option PyVal)
    (hit_counts : Option HitCounts) (llm_verdict : Option String) : ErrorType :=
  match response_data with
  | some (PyVal.dict d) =>
    if !dictHasKey d "final_answer" || !dictHasKey d "supporting_sentences" then .incomplete
    else retrievalStage hit_counts llm_verdict
  | _ => .wrong_format

/-- `analyze_error_type` of `error_analysis.py`.  `hit_counts` models
`evidence_retrieval_analysis.get('hit_counts')` (`none` = key absent or
analysis degenerate).  Outer `none` = the `parse_json_safely` call in
step 2 does not terminate within `fuel`. -/
def analyze_error_type (fuel : Nat) (is_correct : Bool)
    (response ground_truth raw_response : String)
    (hit_counts : Option HitCounts) (llm_verdict : Option String) : Option ErrorType :=
  if is_correct then some .correct
  else if strContains (strToLower ground_truth) "insufficient information" &&
          !strContains (strToLower response) "insufficient information" then
    some .missing_content
  else
    match parse_json_safely fuel raw_response with
    | none => none
    | some response_data => some (formatStage response_data hit_counts llm_verdict)

/-! ### `evidence_analyzer.check_evidence_retrieval` -/

/-- One ground-truth evidence item (`fact` substring, optional `title`;
an absent title is the empty string, which Python treats as falsy). -/
structure Evidence where
  fact : String
  title : String
  deriving DecidableEq, Repr

/-- One indexed corpus chunk as seen through the vector store's `get`
interface (integer id, raw text, title metadata). -/
structure EvDoc where
  id : Int
  text : String
  title : String
  deriving DecidableEq, Repr

/-- The vector store as the document-lookup collaborator used by
`check_evidence_retrieval`. -/
structure Vectorstore where
  docs : List EvDoc
  deriving Repr

/-- `vectorstore.get(where_document={"$contains": fact}, where={'title':
title} if title else None)['ids']`: ids of documents whose text contains
`fact`, filtered by `title` when it is non-empty. -/
def Vectorstore.lookupIds (vs : Vectorstore) (fact title : String) : List Int :=
  (vs.docs.filter (fun d => strContains d.text fact && (title = "" || d.title = title))).map (·.id)

/-- Document ids matched by one evidence item (the body of the mapping
loop of `check_evidence_retrieval`; an empty fact maps to no ids). -/
def evidenceDocIds (vs : Vectorstore) (e : Evidence) : List Int :=
  if e.fact = "" then [] else vs.lookupIds e.fact e.title

/-- The ranked-list walk of `check_evidence_retrieval`: accumulates
`(relevant_found_count, ap_sum, first_hit_rank)` over the concatenated
context-then-backup list, starting from the given accumulator values. -/
def apWalk (trueIds : Finset Int) :
    List (Int × ℚ) → Nat → Nat → ℚ → Nat → Nat × ℚ × Nat
  | [], _, found, apSum, firstHit => (found, apSum, firstHit)
  | (docId, _) :: rest, rank, found, apSum, firstHit =>
    if docId ∈ trueIds then
      apWalk trueIds rest (rank + 1) (found + 1) (apSum + ((found + 1 : Nat) : ℚ) / (rank : ℚ))
        (if firstHit = 0 then rank else firstHit)
    else apWalk trueIds rest (rank + 1) found apSum firstHit

/-- The full analysis record returned by `check_evidence_retrieval` in
the non-degenerate case (the sets are returned as lists in the source;
only their membership is ever consumed, so they are modelled as
finsets). -/
structure EvAnalysis where
  evidence_to_doc_ids_map : List (List Int)
  context_doc_ids : Finset Int
  retrieved_pool_doc_ids : Finset Int
  hit_counts : HitCounts
  ap : ℚ
  mrr_score : ℚ
  deriving DecidableEq

/-- The non-degenerate body of `check_evidence_retrieval` (everything
after the two early status returns). -/
def checkRecord (vs : Vectorstore) (evidence_list : List Evidence)
    (retrieved_docs backup_docs : List (Int × ℚ)) : EvAnalysis :=
  let context_doc_ids : Finset Int := (retrieved_docs.map (·.1)).toFinset
  let backup_doc_ids : Finset Int := (backup_docs.map (·.1)).toFinset
  let retrieved_pool_doc_ids := context_doc_ids ∪ backup_doc_ids
  let evMap := evidence_list.map (evidenceDocIds vs)
  let all_true_doc_ids : Finset Int :=
    evMap.foldl (fun acc ids => acc ∪ ids.toFinset) ∅
  let context_hits : Int := ((context_doc_ids ∩ all_true_doc_ids).card : Int)
  let backup_hits : Int :=
    ((retrieved_pool_doc_ids ∩ all_true_doc_ids).card : Int) - context_hits
  let total_relevant_docs := all_true_doc_ids.card
  let walk := apWalk all_true_doc_ids (retrieved_docs ++ backup_docs) 1 0 0 0
  let ap : ℚ := if total_relevant_docs > 0 then walk.2.1 / (total_relevant_docs : ℚ) else 0
  let mrr : ℚ := if walk.2.2 > 0 then 1 / (walk.2.2 : ℚ) else 0
  { evidence_to_doc_ids_map := evMap
    context_doc_ids := context_doc_ids
    retrieved_pool_doc_ids := retrieved_pool_doc_ids
    hit_counts :=
      { context_hits := context_hits
        backup_hits := backup_hits
        total_evidence := (all_true_doc_ids.card : Int) }
    ap := ap
    mrr_score := mrr }

/-- `check_evidence_retrieval` of `evidence_analyzer.py`.  `none` models
the two degenerate status-only returns (empty evidence list, or no
vector store). -/
def check_evidence_retrieval (evidence_list : List Evidence)
    (retrieved_docs backup_docs : List (Int × ℚ))
    (vectorstore : Option Vectorstore) : Option EvAnalysis :=
  if evidence_list.isEmpty then none
  else
    match vectorstore with
    | none => none
    | some vs => some (checkRecord vs evidence_list retrieved_docs backup_docs)

/-! ### `workflow.py`: results-array fill and aggregation -/

/-- The per-question result record assembled by
`_process_rag_question` / the sequential loop body, restricted to the
fields the drivers and the aggregation read back (`response`,
`raw_response`, `correct`, `evidence_list`,
`evidence_retrieval_analysis`).  `analysis = none` models the
status-only degenerate analysis dict (no `hit_counts` / `ap` /
`mrr_score` keys). -/
structure QuestionRecord where
  response : String
  raw_response : String
  correct : Bool
  evidence_list : List Evidence
  analysis : Option EvAnalysis
  deriving DecidableEq

/-- `_test_rag_sequential` fill loop: slot `i` of the placeholder array
is skipped when already filled, and otherwise receives the processed
result unconditionally.  `process j` is the (deterministic model of the)
result of `_process_rag_question` on question `j`; `i` is the index of
the first slot of the remaining list. -/
def seqFill (process : Nat → QuestionRecord) : Nat → List (Option QuestionRecord) → List (Option QuestionRecord)
  | _, [] => []
  | i, none :: rest => some (process i) :: seqFill process (i + 1) rest
  | i, some r :: rest => some r :: seqFill process (i + 1) rest

/-- `_test_rag_concurrent` fill loop: futures are submitted only for
unfilled slots, each future writes exclusively to its own index (so the
completion order is irrelevant and the loop is modelled index-wise), and
a completed result is stored only when both `raw_response` and
`response` are non-empty — otherwise the slot stays `None` for a future
retry. -/
def concFill (process : Nat → QuestionRecord) : Nat → List (Option QuestionRecord) → List (Option QuestionRecord)
  | _, [] => []
  | i, none :: rest =>
    (if (process i).raw_response ≠ "" ∧ (process i).response ≠ "" then some (process i) else none)
      :: concFill process (i + 1) rest
  | i, some r :: rest => some r :: concFill process (i + 1) rest

/-- Accumulator of the aggregation loop of
`batch_evaluate_configuration`: total context hits, total evidence,
summed reciprocal ranks, summed APs, questions with an analysis record,
retrieval-eligible questions. -/
structure AggState where
  th : Int
  te : Int
  mrrSum : ℚ
  apSum : ℚ
  withAnalysis : Nat
  eligible : Nat
  deriving DecidableEq, Repr

/-- One step of the aggregation loop (`for result in rag_result['results']`). -/
def aggStep (s : AggState) (r : Option QuestionRecord) : AggState :=
  match r with
  | none => s
  | some q =>
    -- the 'evidence_retrieval_analysis' key is always present in a
    -- stored record; only a full analysis has the metric keys
    let s := { s with withAnalysis := s.withAnalysis + 1 }
    match q.analysis with
    | none => s
    | some a =>
      let s :=
        if a.hit_counts.total_evidence > 0 then
          { s with
            th := s.th + a.hit_counts.context_hits
            te := s.te + a.hit_counts.total_evidence
            eligible := s.eligible + 1 }
        else s
      { s with mrrSum := s.mrrSum + a.mrr_score, apSum := s.apSum + a.ap }

/-- The aggregation loop of `batch_evaluate_configuration` over the
results array. -/
def aggregateResults (results : List (Option QuestionRecord)) : AggState :=
  results.foldl aggStep ⟨0, 0, 0, 0, 0, 0⟩

/-- `overall_recall_at_k` of `batch_evaluate_configuration`. -/
def overallRecall (results : List (Option QuestionRecord)) : ℚ :=
  let s := aggregateResults results
  if s.te > 0 then (s.th : ℚ) / (s.te : ℚ) else 0

/-- `avg_mrr` of `batch_evaluate_configuration`. -/
def avgMRR (results : List (Option QuestionRecord)) : ℚ :=
  let s := aggregateResults results
  if s.eligible > 0 then s.mrrSum / (s.eligible : ℚ) else 0

/-- `avg_map` of `batch_evaluate_configuration`. -/
def avgMAP (results : List (Option QuestionRecord)) : ℚ :=
  let s := aggregateResults results
  if s.eligible > 0 then s.apSum / (s.eligible : ℚ) else 0

/-! ### `rag.py`: context/backup partition of `rag_workflow` -/

/-- Python `zip` of the id, score and text lists (the constant reserved
`[]` slot of the source tuples is omitted). -/
def zipDocs : List Int → List ℚ → List String → List (Int × ℚ × String)
  | i :: is, s :: ss, t :: ts => (i, s, t) :: zipDocs is ss ts
  | _, _, _ => []

/-- The partition step of `rag_workflow` (lines 129–138 of `rag.py`):
slice the (possibly reranked) id/score/text lists at `k` into the
context tuples and the backup tuples. -/
def ragPartition (k : Nat) (doc_ids : List Int) (all_scores : List ℚ) (docs : List String) :
    List (Int × ℚ × String) × List (Int × ℚ × String) :=
  let top_k_doc_ids := doc_ids.take k
  let top_k_scores := all_scores.take k
  let top_k_docs := docs.take k
  let backup_docs_list := if docs.length > k then docs.drop k else []
  let backup_doc_ids := if doc_ids.length > k then doc_ids.drop k else []
  let backup_scores := if all_scores.length > k then all_scores.drop k else []
  (zipDocs top_k_doc_ids top_k_scores top_k_docs,
   zipDocs backup_doc_ids backup_scores backup_docs_list)

/-! ### Helper lemmas -/

/-- Steps 4–5 of the cascade can only produce generation-side labels,
never the two retrieval-side ones. -/
theorem verdictLabel_cases (v : String) :
    verdictLabel v = .incorrect_specificity ∨ verdictLabel v = .incomplete ∨
    verdictLabel v = .unknown := by
  unfold verdictLabel
  split_ifs <;> simp

theorem generationStage_cases (hit_counts : Option HitCounts) (llm_verdict : Option String) :
    generationStage hit_counts llm_verdict = .not_extracted ∨
    generationStage hit_counts llm_verdict = .unknown ∨
    generationStage hit_counts llm_verdict = .incorrect_specificity ∨
    generationStage hit_counts llm_verdict = .incomplete := by
  unfold generationStage
  split
  · exact Or.inl rfl
  · cases llm_verdict with
    | none => simp
    | some v =>
      rcases verdictLabel_cases v with h | h | h <;> simp [h]

/-- Steps 4–5 of the cascade can only produce generation-side labels,
never the two retrieval-side ones. -/
theorem generationStage_ne_retrieval (hit_counts : Option HitCounts) (llm_verdict : Option String) :
    generationStage hit_counts llm_verdict ≠ .missed_top_ranked_documents ∧
    generationStage hit_counts llm_verdict ≠ .not_in_context := by
  rcases generationStage_cases hit_counts llm_verdict with h | h | h | h <;> rw [h] <;> exact ⟨by simp, by simp⟩

/-! ### C1 -/

/-- C1: for every classifier input with `is_correct = false` whose
ground-truth answer contains "insufficient information"
(case-insensitively) while the predicted answer does not,
`analyze_error_type` returns `missing_content`, regardless of the raw
response (and hence of its parse), of the hit counts, of the coverage
ratios they induce, and of the LLM verdict — rule 2 short-circuits every
later stage. -/
theorem C1_missing_content_short_circuits (fuel : Nat)
    (response ground_truth raw_response : String)
    (hit_counts : Option HitCounts) (llm_verdict : Option String)
    (hgt : strContains (strToLower ground_truth) "insufficient information" = true)
    (hres : strContains (strToLower response) "insufficient information" = false) :
    analyze_error_type fuel false response ground_truth raw_response hit_counts llm_verdict
      = some .missing_content := by
  simp [analyze_error_type, hgt, hres]

/-- Witness for C1 at a concrete input (zero parser fuel, unparsable raw
response, coverage-ratio hit counts of 10/10 which would otherwise fall
through to later rules). -/
theorem C1_witness :
    analyze_error_type 0 false "42" "Insufficient information." "not json" (some ⟨10, 0, 10⟩)
      (some "incomplete") = some .missing_content :=
  C1_missing_content_short_circuits 0 "42" "Insufficient information." "not json"
    (some ⟨10, 0, 10⟩) (some "incomplete") (by decide) (by decide)

/-! ### C2 -/

/-- C2: when the cascade reaches the retrieval-error stage (wrong answer,
rule 2 not fired, raw response parsed into a mapping with both expected
keys) with `total_evidence > 0`, a coverage ratio of exactly `0.70` does
not fire the corresponding rule: if `(context_hits + backup_hits) /
total_evidence = 7/10` the label is not `missed_top_ranked_documents`,
and if `context_hits / total_evidence = 7/10` the label is not
`not_in_context` — both comparisons are strict `< 0.70`. -/
theorem C2_threshold_exactness (fuel : Nat)
    (response ground_truth raw_response : String)
    (d : List (String × PyVal)) (hc : HitCounts) (llm_verdict : Option String)
    (hmc : (strContains (strToLower ground_truth) "insufficient information" &&
            !strContains (strToLower response) "insufficient information") = false)
    (hparse : parse_json_safely fuel raw_response = some (some (PyVal.dict d)))
    (hfa : dictHasKey d "final_answer" = true)
    (hss : dictHasKey d "supporting_sentences" = true)
    (ht : hc.total_evidence > 0) :
    (retrievalCoverageRatio hc = 7/10 →
      analyze_error_type fuel false response ground_truth raw_response (some hc) llm_verdict
        ≠ some .missed_top_ranked_documents) ∧
    (contextCoverageRatio hc = 7/10 →
      analyze_error_type fuel false response ground_truth raw_response (some hc) llm_verdict
        ≠ some .not_in_context) := by
  have hne := generationStage_ne_retrieval (some hc) llm_verdict
  have hform : analyze_error_type fuel false response ground_truth raw_response (some hc)
      llm_verdict = some (formatStage (some (PyVal.dict d)) (some hc) llm_verdict) := by
    simp [analyze_error_type, hmc, hparse]
  have hret : formatStage (some (PyVal.dict d)) (some hc) llm_verdict
      = retrievalStage (some hc) llm_verdict := by
    simp [formatStage, hfa, hss]
  rw [hform, hret]
  constructor
  · intro hr
    have hnlt : ¬ retrievalCoverageRatio hc < 7/10 := by rw [hr]; exact lt_irrefl _
    simp only [retrievalStage]
    rw [if_pos ht, if_neg hnlt]
    split
    · simp
    · simpa using hne.1
  · intro hcr
    have hnlt : ¬ contextCoverageRatio hc < 7/10 := by rw [hcr]; exact lt_irrefl _
    simp only [retrievalStage]
    rw [if_pos ht]
    split
    · simp
    · simpa using hne.2

/-- A raw response that parses at ladder stage (a) into a mapping with
both expected keys. -/
def rawBothKeys : String := "\x7b\"supporting_sentences\": [], \"final_answer\": \"x\"\x7d"

/-- Its parsed entries. -/
def dBothKeys : List (String × PyVal) :=
  [("supporting_sentences", PyVal.list []), ("final_answer", PyVal.str "x")]

/-- Witness for C2 at a concrete input: hit counts 7-of-10 give both
coverage ratios exactly `0.70`, and neither retrieval label is produced. -/
theorem C2_witness :
    analyze_error_type 0 false "a" "b" rawBothKeys (some ⟨7, 0, 10⟩) none
      ≠ some .missed_top_ranked_documents ∧
    analyze_error_type 0 false "a" "b" rawBothKeys (some ⟨7, 0, 10⟩) none
      ≠ some .not_in_context := by
  have h := C2_threshold_exactness 0 "a" "b" rawBothKeys dBothKeys ⟨7, 0, 10⟩ none
    (by decide) (by rfl) (by decide) (by decide) (by decide)
  refine ⟨h.1 ?_, h.2 ?_⟩
  · show ((7 : ℚ) + 0) / 10 = 7/10
    norm_num
  · show (7 : ℚ) / 10 = 7/10
    norm_num

/-! ### Parsing fallback (C4, C9) -/

/-- Whether a ladder result is a mapping. -/
def isDictVal : Option PyVal → Bool
  | some (PyVal.dict _) => true
  | _ => false

/-- Shared helper: whenever the ladder terminates without producing a
mapping, `parse_rag_response` returns the raw text and an empty list. -/
theorem parse_fallback_of_not_dict (fuel : Nat) (s : String) (r : Option PyVal)
    (h : parse_json_safely fuel s = some r) (hd : isDictVal r = false) :
    parse_rag_response fuel s = some (s, []) := by
  unfold parse_rag_response
  rw [h]
  cases r with
  | none => rfl
  | some v => cases v <;> simp_all [isDictVal]

/-- The lone-single-quote input on which the stage-(e) scanner of the
source loops forever: its main loop re-enters the same state without
advancing the index whenever a single quote in key position has no
terminating quote. -/
theorem convertLoop_lone_quote (q : Char) (acc : List Char) :
    ∀ fuel : Nat, convertLoop "'".data.toArray fuel 0 false q acc = none := by
  intro fuel
  induction fuel with
  | zero => rfl
  | succ n ih => exact ih

/-- `parse_json_safely` inherits the divergence: on input `"'"` every
earlier ladder stage fails and the stage-(e) scanner never terminates,
for any amount of fuel. -/
theorem parse_json_safely_lone_quote_diverges (fuel : Nat) :
    parse_json_safely fuel "'" = none := by
  have hc : convert_python_dict_to_json fuel "'" = none := by
    unfold convert_python_dict_to_json
    rw [convertLoop_lone_quote '"' [] fuel]
    rfl
  show (match convert_python_dict_to_json fuel (cleanCodeFence "'") with
    | none => (none : Option (Option PyVal))
    | some conv =>
      match json_loads conv with
      | some v => some (some v)
      | none => some none) = none
  rw [show cleanCodeFence "'" = "'" from rfl, hc]

/-- A raw response that parses into a mapping holding `final_answer`
but not `supporting_sentences`. -/
def rawOnlyFA : String := "\x7b\"final_answer\": \"x\"\x7d"

/-- C4 counterexample: on `rawOnlyFA` the ladder produces a mapping that
does not contain both expected keys, yet `parse_rag_response` does not
return the original raw text — it returns the mapping's `final_answer`
value `"x"` (the missing key falls back per-key, not to the full
fallback). -/
theorem C4_counterexample :
    parse_json_safely 0 rawOnlyFA = some (some (PyVal.dict [("final_answer", PyVal.str "x")])) ∧
    dictHasKey [("final_answer", PyVal.str "x")] "supporting_sentences" = false ∧
    parse_rag_response 0 rawOnlyFA = some ("x", []) ∧
    "x" ≠ rawOnlyFA :=
  ⟨rfl, rfl, rfl, by decide⟩

/-- C4 (amended): whenever the ladder terminates, `parse_rag_response`
terminates without raising; when the ladder produced no value or a
non-mapping, it returns the original raw text with an empty
supporting-sentences list; when it produced a mapping, each expected key
missing falls back per-key — a missing `final_answer` yields the raw
text as final answer, and a missing `supporting_sentences` yields the
empty list (so the full `(raw, [])` fallback occurs for a mapping only
if both keys are absent). -/
theorem C4_parse_fallback (fuel : Nat) (s : String) (r : Option PyVal)
    (h : parse_json_safely fuel s = some r) :
    (parse_rag_response fuel s).isSome = true ∧
    (isDictVal r = false → parse_rag_response fuel s = some (s, [])) ∧
    (∀ d, r = some (PyVal.dict d) → dictGet d "final_answer" = none →
      (parse_rag_response fuel s).map Prod.fst = some s) ∧
    (∀ d, r = some (PyVal.dict d) → dictGet d "supporting_sentences" = none →
      (parse_rag_response fuel s).map Prod.snd = some ([] : List PyVal)) := by
  refine ⟨?_, fun hd => parse_fallback_of_not_dict fuel s r h hd, ?_, ?_⟩
  · unfold parse_rag_response
    rw [h]
    cases r with
    | none => rfl
    | some v => cases v <;> rfl
  · intro d hr hget
    subst hr
    unfold parse_rag_response
    rw [h]
    simp [hget]
  · intro d hr hget
    subst hr
    unfold parse_rag_response
    rw [h]
    simp [hget]

/-- Witness for C4 at a concrete input: `"oops"` fails every ladder
stage, and `parse_rag_response` returns it unchanged with no supporting
sentences. -/
theorem C4_witness :
    parse_rag_response 20 "oops" = some ("oops", []) :=
  (C4_parse_fallback 20 "oops" none rfl).2.1 rfl

/-- C9: if the ladder (with enough fuel to terminate) does not produce a
mapping from `s`, then `parse_rag_response` falls back to `(s, [])`, and
feeding the returned string back into `parse_rag_response` reproduces
exactly the same pair — the fallback is a fixed point. -/
theorem C9_fallback_fixed_point (fuel : Nat) (s : String) (r : Option PyVal)
    (h : parse_json_safely fuel s = some r) (hd : isDictVal r = false) :
    parse_rag_response fuel s = some (s, []) ∧
    ∀ p : String × List PyVal, parse_rag_response fuel s = some p →
      parse_rag_response fuel p.1 = some (s, []) := by
  have h1 := parse_fallback_of_not_dict fuel s r h hd
  refine ⟨h1, fun p hp => ?_⟩
  have hps : p = (s, []) := by
    rw [h1] at hp
    exact (Option.some.inj hp).symm
  rw [hps]
  exact h1

/-- Witness for C9 at a concrete input: the non-JSON-like string
`"hello world"` is a fixed point of the parser fallback. -/
theorem C9_witness :
    parse_rag_response 40 "hello world" = some ("hello world", []) ∧
    parse_rag_response 40 ("hello world", ([] : List PyVal)).1
      = some ("hello world", []) := by
  have h := C9_fallback_fixed_point 40 "hello world" none rfl rfl
  exact ⟨h.1, h.2 ("hello world", []) h.1⟩

/-! ### C3: results-array fill discipline -/

/-- A processing oracle whose results have empty raw and parsed
responses (models a failed RAG call, e.g. after a rerank failure). -/
def emptyProc : Nat → QuestionRecord :=
  fun _ => ⟨"", "", false, [], none⟩

/-- A processing oracle whose results are non-empty. -/
def okProc : Nat → QuestionRecord :=
  fun _ => ⟨"Paris", "\x7b\"final_answer\": \"Paris\"\x7d", true, [], none⟩

/-- C3 counterexample: in sequential mode an empty-response result is
written into the placeholder slot anyway (the slot does not keep its
`None` for retry), unlike in concurrent mode on the same input — so the
acceptance filter does not hold in both execution modes. -/
theorem C3_counterexample :
    seqFill emptyProc 0 [none] = [some (emptyProc 0)] ∧
    (emptyProc 0).raw_response = "" ∧
    (emptyProc 0).response = "" ∧
    concFill emptyProc 0 [none] = [none] := by
  refine ⟨rfl, rfl, rfl, ?_⟩
  show (if ("" : String) ≠ "" ∧ ("" : String) ≠ "" then some (emptyProc 0) else none) :: [] = [none]
  simp

/-- C3 (amended): the acceptance filter holds in concurrent mode only —
there an empty slot receives the result exactly when both its raw
response and parsed answer are non-empty and otherwise stays `None` for
retry; in sequential mode an empty slot receives the processed result
unconditionally; in both modes an already-filled slot is skipped and
left unchanged on re-entry. -/
theorem C3_fill_discipline (process : Nat → QuestionRecord) (i0 : Nat)
    (ph : List (Option QuestionRecord)) (j : Nat) :
    (ph[j]? = some none →
      (seqFill process i0 ph)[j]? = some (some (process (i0 + j))) ∧
      (concFill process i0 ph)[j]? =
        some (if (process (i0 + j)).raw_response ≠ "" ∧ (process (i0 + j)).response ≠ ""
              then some (process (i0 + j)) else none)) ∧
    (∀ r, ph[j]? = some (some r) →
      (seqFill process i0 ph)[j]? = some (some r) ∧
      (concFill process i0 ph)[j]? = some (some r)) := by
  induction ph generalizing i0 j with
  | nil => simp
  | cons hd tl ih =>
    cases j with
    | zero =>
      cases hd with
      | none =>
        refine ⟨fun _ => ⟨?_, ?_⟩, fun r hr => by simp at hr⟩
        · simp [seqFill]
        · simp [concFill]
      | some q =>
        refine ⟨fun hco => by simp at hco, fun r hr => ?_⟩
        simp at hr
        subst hr
        exact ⟨by simp [seqFill], by simp [concFill]⟩
    | succ n =>
      have := ih (i0 + 1) n
      cases hd with
      | none =>
        constructor
        · intro hn
          have h2 := this.1 (by simpa using hn)
          constructor
          · simpa [seqFill, Nat.add_assoc, Nat.add_comm 1 n] using h2.1
          · simpa [concFill, Nat.add_assoc, Nat.add_comm 1 n] using h2.2
        · intro r hr
          have h2 := this.2 r (by simpa using hr)
          exact ⟨by simpa [seqFill] using h2.1, by simpa [concFill] using h2.2⟩
      | some q =>
        constructor
        · intro hn
          have h2 := this.1 (by simpa using hn)
          constructor
          · simpa [seqFill, Nat.add_assoc, Nat.add_comm 1 n] using h2.1
          · simpa [concFill, Nat.add_assoc, Nat.add_comm 1 n] using h2.2
        · intro r hr
          have h2 := this.2 r (by simpa using hr)
          exact ⟨by simpa [seqFill] using h2.1, by simpa [concFill] using h2.2⟩

/-- Witness for C3 at concrete inputs: a two-slot array whose first slot
is empty and second is filled; with a non-empty result both modes fill
slot 0, and both modes keep slot 1 unchanged. -/
theorem C3_witness :
    (seqFill okProc 0 [none, some (emptyProc 1)])[0]? = some (some (okProc 0)) ∧
    (concFill okProc 0 [none, some (emptyProc 1)])[0]? = some (some (okProc 0)) ∧
    (seqFill okProc 0 [none, some (emptyProc 1)])[1]? = some (some (emptyProc 1)) ∧
    (concFill okProc 0 [none, some (emptyProc 1)])[1]? = some (some (emptyProc 1)) := by
  have h0 := (C3_fill_discipline okProc 0 [none, some (emptyProc 1)] 0).1 rfl
  have h1 := (C3_fill_discipline okProc 0 [none, some (emptyProc 1)] 1).2 (emptyProc 1) rfl
  refine ⟨h0.1, ?_, h1.1, h1.2⟩
  have hne : (okProc 0).raw_response ≠ "" ∧ (okProc 0).response ≠ "" := by
    constructor <;> decide
  rw [h0.2, if_pos hne]

/-! ### C8: retrieval partition -/

theorem zipDocs_take : ∀ (k : Nat) (a : List Int) (b : List ℚ) (c : List String),
    zipDocs (a.take k) (b.take k) (c.take k) = (zipDocs a b c).take k
  | 0, _, _, _ => by simp [zipDocs]
  | k+1, [], b, c => by simp [zipDocs]
  | k+1, _ :: _, [], c => by simp [zipDocs]
  | k+1, _ :: _, _ :: _, [] => by simp [zipDocs]
  | k+1, x :: a, y :: b, z :: c => by
    simp only [List.take_succ_cons, zipDocs]
    rw [zipDocs_take k a b c]

theorem zipDocs_drop : ∀ (k : Nat) (a : List Int) (b : List ℚ) (c : List String),
    zipDocs (a.drop k) (b.drop k) (c.drop k) = (zipDocs a b c).drop k
  | 0, _, _, _ => by simp
  | k+1, [], b, c => by simp [zipDocs]
  | k+1, _ :: _, [], c => by simp [zipDocs]
  | k+1, _ :: _, _ :: _, [] => by
    simp [zipDocs, List.drop_eq_nil_of_le]
  | k+1, x :: a, y :: b, z :: c => by
    simp only [List.drop_succ_cons, zipDocs]
    exact zipDocs_drop k a b c

theorem zipDocs_length : ∀ (a : List Int) (b : List ℚ) (c : List String),
    (zipDocs a b c).length = min a.length (min b.length c.length)
  | [], b, c => by simp [zipDocs]
  | _ :: _, [], c => by simp [zipDocs]
  | _ :: _, _ :: _, [] => by simp [zipDocs]
  | x :: a, y :: b, z :: c => by
    simp only [zipDocs, List.length_cons, zipDocs_length a b c]
    omega

/-- C8: when the (possibly reranked) candidate pool has `n ≤
rerank_range` documents, the partition step returns context = the first
`min k n` candidates in pool order and backup = the remaining ones, so
`len(context) ≤ k` and `len(context) + len(backup) ≤ rerank_range`
always hold, and a pool shorter than `k` yields a context of exactly the
pool's length with no padding. -/
theorem C8_retrieval_partition (k rerank_range : Nat) (doc_ids : List Int)
    (all_scores : List ℚ) (docs : List String)
    (hl1 : doc_ids.length = docs.length) (hl2 : all_scores.length = docs.length)
    (hn : docs.length ≤ rerank_range) :
    (ragPartition k doc_ids all_scores docs).1 = (zipDocs doc_ids all_scores docs).take k ∧
    (ragPartition k doc_ids all_scores docs).2 = (zipDocs doc_ids all_scores docs).drop k ∧
    (ragPartition k doc_ids all_scores docs).1.length = min k docs.length ∧
    (ragPartition k doc_ids all_scores docs).1.length ≤ k ∧
    (ragPartition k doc_ids all_scores docs).1.length
      + (ragPartition k doc_ids all_scores docs).2.length ≤ rerank_range ∧
    (docs.length < k → (ragPartition k doc_ids all_scores docs).1.length = docs.length) := by
  have h1 : (ragPartition k doc_ids all_scores docs).1
      = (zipDocs doc_ids all_scores docs).take k := by
    simp only [ragPartition]
    exact zipDocs_take k doc_ids all_scores docs
  have h2 : (ragPartition k doc_ids all_scores docs).2
      = (zipDocs doc_ids all_scores docs).drop k := by
    simp only [ragPartition]
    by_cases hk : docs.length > k
    · rw [if_pos hk, if_pos (by omega : doc_ids.length > k), if_pos (by omega : all_scores.length > k)]
      exact zipDocs_drop k doc_ids all_scores docs
    · rw [if_neg hk, if_neg (by omega : ¬ doc_ids.length > k), if_neg (by omega : ¬ all_scores.length > k)]
      have hz : (zipDocs doc_ids all_scores docs).drop k = [] := by
        apply List.drop_eq_nil_of_le
        rw [zipDocs_length]
        omega
      rw [hz]
      simp [zipDocs]
  have hzl : (zipDocs doc_ids all_scores docs).length = docs.length := by
    rw [zipDocs_length]
    omega
  have hlen1 : (ragPartition k doc_ids all_scores docs).1.length = min k docs.length := by
    rw [h1, List.length_take, hzl]
  refine ⟨h1, h2, hlen1, ?_, ?_, ?_⟩
  · rw [hlen1]; omega
  · rw [hlen1, h2, List.length_drop, hzl]; omega
  · intro hlt; rw [hlen1]; omega

/-- Witness for C8 at a concrete pool of three candidates with `k = 2`
and `rerank_range = 3`. -/
theorem C8_witness :
    (ragPartition 2 [10, 20, 30] [1, 1/2, 0] ["a", "b", "c"]).1
      = (zipDocs [10, 20, 30] [1, 1/2, 0] ["a", "b", "c"]).take 2 ∧
    (ragPartition 2 [10, 20, 30] [1, 1/2, 0] ["a", "b", "c"]).2
      = (zipDocs [10, 20, 30] [1, 1/2, 0] ["a", "b", "c"]).drop 2 ∧
    (ragPartition 2 [10, 20, 30] [1, 1/2, 0] ["a", "b", "c"]).1.length = min 2 3 ∧
    (ragPartition 2 [10, 20, 30] [1, 1/2, 0] ["a", "b", "c"]).1.length ≤ 2 ∧
    (ragPartition 2 [10, 20, 30] [1, 1/2, 0] ["a", "b", "c"]).1.length
      + (ragPartition 2 [10, 20, 30] [1, 1/2, 0] ["a", "b", "c"]).2.length ≤ 3 ∧
    ((["a", "b", "c"] : List String).length < 2 →
      (ragPartition 2 [10, 20, 30] [1, 1/2, 0] ["a", "b", "c"]).1.length = 3) :=
  C8_retrieval_partition 2 3 [10, 20, 30] [1, 1/2, 0] ["a", "b", "c"] rfl rfl (by simp)

/-! ### C5, C10: hit-count structure and invariants -/

/-- The union of the per-evidence matched id sets, written as the claim
states it: the union over all evidence items of the set of ids matching
that item. -/
def allTrueIdsSpec (vs : Vectorstore) (ev : List Evidence) : Finset Int :=
  (ev.map (fun e => (evidenceDocIds vs e).toFinset)).foldr (· ∪ ·) ∅

theorem foldl_union_eq_foldr (l : List (Finset Int)) :
    ∀ init : Finset Int, l.foldl (· ∪ ·) init = init ∪ l.foldr (· ∪ ·) ∅ := by
  induction l with
  | nil => intro init; simp
  | cons x xs ih =>
    intro init
    simp only [List.foldl_cons, List.foldr_cons, ih]
    rw [Finset.union_assoc]

/-- The accumulated union computed by the source equals the spec-side
union of the per-item id sets. -/
theorem allTrue_code_eq (vs : Vectorstore) (ev : List Evidence) :
    ((ev.map (evidenceDocIds vs)).foldl (fun acc ids => acc ∪ ids.toFinset) ∅)
      = allTrueIdsSpec vs ev := by
  unfold allTrueIdsSpec
  rw [List.foldl_map, show (ev.map (fun e => (evidenceDocIds vs e).toFinset))
      = ev.map (fun e => (evidenceDocIds vs e).toFinset) from rfl]
  rw [show (fun (acc : Finset Int) (e : Evidence) => acc ∪ (evidenceDocIds vs e).toFinset)
      = (fun acc e => acc ∪ (fun e => (evidenceDocIds vs e).toFinset) e) from rfl]
  rw [← List.foldl_map (fun e => (evidenceDocIds vs e).toFinset) (· ∪ ·)]
  rw [foldl_union_eq_foldr]
  simp

/-- Destructor for a successful analysis. -/
theorem check_some_elim {ev : List Evidence} {rd bd : List (Int × ℚ)}
    {vs : Option Vectorstore} {a : EvAnalysis}
    (h : check_evidence_retrieval ev rd bd vs = some a) :
    ∃ vs', vs = some vs' ∧ a = checkRecord vs' ev rd bd := by
  unfold check_evidence_retrieval at h
  by_cases he : ev.isEmpty <;> simp [he] at h
  cases vs with
  | none => simp at h
  | some vs' =>
    simp at h
    exact ⟨vs', rfl, h.symm⟩

/-- C5: in every analysis returned with a non-empty evidence list and a
vector store present, the hit counts count distinct document ids:
`context_hits = |context_doc_ids ∩ all_true_ids|`,
`backup_hits = |(context ∪ backup doc ids) ∩ all_true_ids| −
context_hits`, and `total_evidence = |all_true_ids|`, the number of
distinct evidence-satisfying ids in the union over all evidence items. -/
theorem C5_hit_counts_distinct_ids (ev : List Evidence) (rd bd : List (Int × ℚ))
    (vs : Vectorstore) (a : EvAnalysis)
    (h : check_evidence_retrieval ev rd bd (some vs) = some a) :
    a.hit_counts.context_hits
      = (((rd.map Prod.fst).toFinset ∩ allTrueIdsSpec vs ev).card : Int) ∧
    a.hit_counts.backup_hits
      = ((((rd.map Prod.fst).toFinset ∪ (bd.map Prod.fst).toFinset)
          ∩ allTrueIdsSpec vs ev).card : Int)
        - (((rd.map Prod.fst).toFinset ∩ allTrueIdsSpec vs ev).card : Int) ∧
    a.hit_counts.total_evidence = ((allTrueIdsSpec vs ev).card : Int) := by
  obtain ⟨vs', hvs, ha⟩ := check_some_elim h
  obtain rfl : vs' = vs := by injection hvs.symm
  subst ha
  refine ⟨?_, ?_, ?_⟩ <;>
    simp only [checkRecord, allTrue_code_eq]

/-- A two-document corpus used by the concrete witnesses. -/
def vsW : Vectorstore := ⟨[⟨1, "alpha beta", "t"⟩, ⟨2, "gamma delta", "t"⟩]⟩

/-- One evidence item matched (only) by document 1. -/
def evW : List Evidence := [⟨"alpha", ""⟩]

/-- The analysis record produced on the witness inputs
(context `[(1, 1)]`, backup `[(2, 1/2)]`). -/
def evAnalysisW : EvAnalysis :=
  { evidence_to_doc_ids_map := [[1]]
    context_doc_ids := {1}
    retrieved_pool_doc_ids := {1, 2}
    hit_counts := ⟨1, 0, 1⟩
    ap := 1
    mrr_score := 1 }

theorem checkRecordW_eq : checkRecord vsW evW [(1, 1)] [(2, 1/2)] = evAnalysisW := by
  have hT : (List.foldl (fun (acc : Finset Int) (ids : List Int) => acc ∪ ids.toFinset) ∅
      (List.map (evidenceDocIds vsW) evW)) = {1} := by decide
  simp only [checkRecord, hT]
  unfold evAnalysisW
  rw [EvAnalysis.mk.injEq]
  refine ⟨by decide, by decide, by decide, by decide, ?_, ?_⟩
  · norm_num [apWalk, Finset.card_singleton, Finset.mem_singleton]
  · norm_num [apWalk, Finset.mem_singleton]

theorem checkW_eq :
    check_evidence_retrieval evW [(1, 1)] [(2, 1/2)] (some vsW) = some evAnalysisW := by
  rw [show check_evidence_retrieval evW [(1, 1)] [(2, 1/2)] (some vsW)
      = some (checkRecord vsW evW [(1, 1)] [(2, 1/2)]) from rfl, checkRecordW_eq]

/-- Witness for C5 on the concrete corpus (context `[(1, 1)]`, backup
`[(2, 1/2)]`). -/
theorem C5_witness :
    evAnalysisW.hit_counts.context_hits
      = (((([((1 : Int), (1 : ℚ))].map Prod.fst).toFinset ∩ allTrueIdsSpec vsW evW).card : Int)) ∧
    evAnalysisW.hit_counts.backup_hits
      = ((((([((1 : Int), (1 : ℚ))].map Prod.fst).toFinset
            ∪ ([((2 : Int), (1/2 : ℚ))].map Prod.fst).toFinset)
          ∩ allTrueIdsSpec vsW evW).card : Int)
        - ((([((1 : Int), (1 : ℚ))].map Prod.fst).toFinset ∩ allTrueIdsSpec vsW evW).card : Int)) ∧
    evAnalysisW.hit_counts.total_evidence = ((allTrueIdsSpec vsW evW).card : Int) :=
  C5_hit_counts_distinct_ids evW [(1, 1)] [(2, 1/2)] vsW evAnalysisW checkW_eq

/-- The hit-count record of every non-degenerate analysis, written with
the spec-side union. -/
theorem checkRecord_hit_counts (vs : Vectorstore) (ev : List Evidence)
    (rd bd : List (Int × ℚ)) :
    (checkRecord vs ev rd bd).hit_counts =
      ⟨((((rd.map Prod.fst).toFinset ∩ allTrueIdsSpec vs ev).card : Nat) : Int),
       (((((rd.map Prod.fst).toFinset ∪ (bd.map Prod.fst).toFinset)
           ∩ allTrueIdsSpec vs ev).card : Nat) : Int)
         - ((((rd.map Prod.fst).toFinset ∩ allTrueIdsSpec vs ev).card : Nat) : Int),
       (((allTrueIdsSpec vs ev).card : Nat) : Int)⟩ := by
  simp only [checkRecord, allTrue_code_eq]

/-- Bounds of the two coverage ratios on any hit-count record of the
shape the analyzer produces. -/
theorem coverage_ratio_bounds (c p t : Nat) (hcp : c ≤ p) (hpt : p ≤ t) (ht : 0 < t) :
    0 ≤ retrievalCoverageRatio ⟨(c : Int), ((p : Int) - (c : Int)), (t : Int)⟩ ∧
    retrievalCoverageRatio ⟨(c : Int), ((p : Int) - (c : Int)), (t : Int)⟩ ≤ 1 ∧
    0 ≤ contextCoverageRatio ⟨(c : Int), ((p : Int) - (c : Int)), (t : Int)⟩ ∧
    contextCoverageRatio ⟨(c : Int), ((p : Int) - (c : Int)), (t : Int)⟩ ≤ 1 := by
  have htq : (0 : ℚ) < (t : ℚ) := by exact_mod_cast ht
  have h1 : retrievalCoverageRatio ⟨(c : Int), ((p : Int) - (c : Int)), (t : Int)⟩
      = (p : ℚ) / (t : ℚ) := by
    unfold retrievalCoverageRatio
    push_cast
    ring_nf
  have h2 : contextCoverageRatio ⟨(c : Int), ((p : Int) - (c : Int)), (t : Int)⟩
      = (c : ℚ) / (t : ℚ) := by
    unfold contextCoverageRatio
    push_cast
    ring_nf
  rw [h1, h2]
  exact ⟨div_nonneg (by positivity) htq.le, (div_le_one htq).mpr (by exact_mod_cast hpt),
         div_nonneg (by positivity) htq.le,
         (div_le_one htq).mpr (by exact_mod_cast le_trans hcp hpt)⟩

/-- C10: every returned hit-count record satisfies
`0 ≤ context_hits`, `0 ≤ backup_hits` and
`context_hits + backup_hits ≤ total_evidence`, so whenever
`total_evidence > 0` both coverage ratios computed by the error
classifier are well defined and lie in `[0, 1]`. -/
theorem C10_hit_count_invariants (ev : List Evidence) (rd bd : List (Int × ℚ))
    (vs : Option Vectorstore) (a : EvAnalysis)
    (h : check_evidence_retrieval ev rd bd vs = some a) :
    0 ≤ a.hit_counts.context_hits ∧ 0 ≤ a.hit_counts.backup_hits ∧
    a.hit_counts.context_hits + a.hit_counts.backup_hits ≤ a.hit_counts.total_evidence ∧
    (0 < a.hit_counts.total_evidence →
      0 ≤ retrievalCoverageRatio a.hit_counts ∧ retrievalCoverageRatio a.hit_counts ≤ 1 ∧
      0 ≤ contextCoverageRatio a.hit_counts ∧ contextCoverageRatio a.hit_counts ≤ 1) := by
  obtain ⟨vs', -, ha⟩ := check_some_elim h
  subst ha
  rw [checkRecord_hit_counts]
  dsimp only
  set c := ((rd.map Prod.fst).toFinset ∩ allTrueIdsSpec vs' ev).card with hc
  set p := (((rd.map Prod.fst).toFinset ∪ (bd.map Prod.fst).toFinset)
      ∩ allTrueIdsSpec vs' ev).card with hp
  set t := (allTrueIdsSpec vs' ev).card with htdef
  have hcp : c ≤ p :=
    Finset.card_le_card
      (Finset.inter_subset_inter Finset.subset_union_left (Finset.Subset.refl _))
  have hpt : p ≤ t := Finset.card_le_card Finset.inter_subset_right
  refine ⟨by omega, by omega, by omega, fun htpos => ?_⟩
  exact coverage_ratio_bounds c p t hcp hpt (by exact_mod_cast htpos)

/-- Witness for C10 on the same concrete corpus. -/
theorem C10_witness :
    0 ≤ evAnalysisW.hit_counts.context_hits ∧ 0 ≤ evAnalysisW.hit_counts.backup_hits ∧
    evAnalysisW.hit_counts.context_hits + evAnalysisW.hit_counts.backup_hits
      ≤ evAnalysisW.hit_counts.total_evidence ∧
    (0 < evAnalysisW.hit_counts.total_evidence →
      0 ≤ retrievalCoverageRatio evAnalysisW.hit_counts ∧
      retrievalCoverageRatio evAnalysisW.hit_counts ≤ 1 ∧
      0 ≤ contextCoverageRatio evAnalysisW.hit_counts ∧
      contextCoverageRatio evAnalysisW.hit_counts ≤ 1) :=
  C10_hit_count_invariants evW [(1, 1)] [(2, 1/2)] (some vsW) evAnalysisW checkW_eq

/-! ### C6: Average Precision and reciprocal rank -/

/-- Number of relevant entries among the first `n` positions of the
ranked list. -/
def relCountUpTo (T : Finset Int) (l : List (Int × ℚ)) (n : Nat) : Nat :=
  ((l.take n).filter (fun p => decide (p.1 ∈ T))).length

/-- The claim-side AP numerator: the sum over the 1-indexed positions
whose document id is relevant of `(relevant found so far) / rank`. -/
def specAPsum (T : Finset Int) (l : List (Int × ℚ)) : ℚ :=
  ∑ i in Finset.range l.length,
    if (l.getD i (0, 0)).1 ∈ T
    then ((relCountUpTo T l (i + 1) : Nat) : ℚ) / ((i + 1 : Nat) : ℚ) else 0

/-- The claim-side AP: the numerator divided by `|all_true_ids|`
(0 if that set is empty). -/
def specAP (T : Finset Int) (l : List (Int × ℚ)) : ℚ :=
  if T.card = 0 then 0 else specAPsum T l / (T.card : ℚ)

/-- The claim-side reciprocal rank: `1 / rank` of the first relevant
position (0 when none is relevant). -/
def specRR (T : Finset Int) (l : List (Int × ℚ)) : ℚ :=
  match l.findIdx? (fun p => decide (p.1 ∈ T)) with
  | some i => 1 / ((i + 1 : Nat) : ℚ)
  | none => 0

/-- Accumulator-free version of the AP sum computed by the walk. -/
def apRecSum (T : Finset Int) : List (Int × ℚ) → Nat → Nat → ℚ
  | [], _, _ => 0
  | (d, _) :: rest, rank, found =>
    if d ∈ T then ((found + 1 : Nat) : ℚ) / ((rank : Nat) : ℚ) + apRecSum T rest (rank + 1) (found + 1)
    else apRecSum T rest (rank + 1) found

/-- Number of relevant entries of the whole list. -/
def relLen (T : Finset Int) (l : List (Int × ℚ)) : Nat :=
  (l.filter (fun p => decide (p.1 ∈ T))).length

/-- Rank (starting at the given value) of the first relevant entry,
0 when there is none. -/
def firstRelRank (T : Finset Int) : List (Int × ℚ) → Nat → Nat
  | [], _ => 0
  | (d, _) :: rest, rank => if d ∈ T then rank else firstRelRank T rest (rank + 1)

/-- The walk of `check_evidence_retrieval` decomposed into its three
independent accumulators. -/
theorem apWalk_eq (T : Finset Int) :
    ∀ (l : List (Int × ℚ)) (rank found : Nat) (apSum : ℚ) (fh : Nat), 1 ≤ rank →
    apWalk T l rank found apSum fh =
      (found + relLen T l, apSum + apRecSum T l rank found,
       if fh = 0 then firstRelRank T l rank else fh) := by
  intro l
  induction l with
  | nil =>
    intro rank found apSum fh _
    simp only [apWalk, relLen, apRecSum, firstRelRank, List.filter_nil, List.length_nil,
      Nat.add_zero, add_zero]
    by_cases h : fh = 0 <;> simp [h]
  | cons hd rest ih =>
    intro rank found apSum fh hrank
    obtain ⟨d, sc⟩ := hd
    by_cases hd : d ∈ T
    · simp only [apWalk, hd, if_true, apRecSum, relLen, firstRelRank, List.filter_cons,
        decide_eq_true hd]
      rw [ih (rank + 1) (found + 1) _ _ (by omega)]
      refine congrArg₂ _ ?_ (congrArg₂ _ ?_ ?_)
      · simp [relLen]
        omega
      · push_cast
        ring
      · by_cases hfh : fh = 0
        · simp [hfh]
          intro hrank0
          omega
        · simp [hfh]
    · simp only [apWalk, hd, if_false, apRecSum, relLen, firstRelRank, List.filter_cons]
      rw [ih (rank + 1) found apSum fh (by omega)]
      refine congrArg₂ _ ?_ (congrArg₂ _ rfl ?_)
      · simp [relLen, hd]
      · rfl

theorem relCountUpTo_cons (T : Finset Int) (d : Int) (sc : ℚ)
    (rest : List (Int × ℚ)) (n : Nat) :
    relCountUpTo T ((d, sc) :: rest) (n + 1)
      = (if d ∈ T then 1 else 0) + relCountUpTo T rest n := by
  unfold relCountUpTo
  rw [List.take_succ_cons, List.filter_cons]
  by_cases hd : d ∈ T
  · simp [hd]
    omega
  · simp [hd]

/-- The accumulator-free walk sum equals the claim-side indexed sum
(with the rank offset carried explicitly). -/
theorem apRecSum_eq_sum (T : Finset Int) :
    ∀ (l : List (Int × ℚ)) (r f : Nat),
    apRecSum T l (r + 1) f =
      ∑ i in Finset.range l.length,
        (if (l.getD i (0, 0)).1 ∈ T
         then (((f + relCountUpTo T l (i + 1) : Nat) : ℚ)) / ((r + i + 1 : Nat) : ℚ) else 0) := by
  intro l
  induction l with
  | nil => intro r f; simp [apRecSum]
  | cons hd rest ih =>
    intro r f
    obtain ⟨d, sc⟩ := hd
    rw [List.length_cons, Finset.sum_range_succ']
    by_cases hd : d ∈ T
    · simp only [apRecSum, hd, if_true]
      rw [ih (r + 1) (f + 1)]
      have hz : ((((d, sc) :: rest).getD 0 (0, 0)).1 ∈ T) := by simpa using hd
      rw [if_pos hz]
      have hrc0 : relCountUpTo T ((d, sc) :: rest) 1 = 1 := by
        rw [show (1 : Nat) = 0 + 1 from rfl, relCountUpTo_cons, if_pos hd]
        simp [relCountUpTo]
      rw [hrc0]
      rw [add_comm]
      congr 1
      apply Finset.sum_congr rfl
      intro i _
      rw [List.getD_cons_succ, relCountUpTo_cons, if_pos hd]
      have h1 : f + (1 + relCountUpTo T rest (i + 1)) = f + 1 + relCountUpTo T rest (i + 1) := by
        omega
      have h2 : r + 1 + i + 1 = r + (i + 1) + 1 := by omega
      rw [h1, h2]
    · simp only [apRecSum, hd, if_false]
      rw [ih (r + 1) f]
      have hz : ¬ ((((d, sc) :: rest).getD 0 (0, 0)).1 ∈ T) := by simpa using hd
      rw [if_neg hz, add_zero]
      apply Finset.sum_congr rfl
      intro i _
      rw [List.getD_cons_succ, relCountUpTo_cons, if_neg hd]
      have h2 : r + 1 + i + 1 = r + (i + 1) + 1 := by omega
      rw [h2]
      norm_num

/-- The first-hit accumulator equals the claim-side first relevant
index (`findIdx?` carries the start offset explicitly). -/
theorem firstRelRank_eq (T : Finset Int) :
    ∀ (l : List (Int × ℚ)) (r : Nat),
    firstRelRank T l (r + 1) =
      (match List.findIdx? (fun p => decide (p.1 ∈ T)) l r with
       | some i => i + 1
       | none => 0) := by
  intro l
  induction l with
  | nil => intro r; simp [firstRelRank, List.findIdx?]
  | cons hd rest ih =>
    intro r
    obtain ⟨d, sc⟩ := hd
    by_cases hd : d ∈ T
    · simp [firstRelRank, hd, List.findIdx?]
    · simp only [firstRelRank, List.findIdx?]
      rw [if_neg hd, if_neg (by simpa using hd)]
      exact ih (r + 1)

/-- The two metric fields of a non-degenerate analysis, with the
all-true set written as the spec-side union. -/
theorem checkRecord_ap_mrr (vs : Vectorstore) (ev : List Evidence) (rd bd : List (Int × ℚ)) :
    (checkRecord vs ev rd bd).ap
      = (if (allTrueIdsSpec vs ev).card > 0
         then (apWalk (allTrueIdsSpec vs ev) (rd ++ bd) 1 0 0 0).2.1
              / (((allTrueIdsSpec vs ev).card : Nat) : ℚ)
         else 0) ∧
    (checkRecord vs ev rd bd).mrr_score
      = (if (apWalk (allTrueIdsSpec vs ev) (rd ++ bd) 1 0 0 0).2.2 > 0
         then 1 / (((apWalk (allTrueIdsSpec vs ev) (rd ++ bd) 1 0 0 0).2.2 : Nat) : ℚ)
         else 0) := by
  constructor <;> simp only [checkRecord, allTrue_code_eq]

/-- C6: in every non-degenerate analysis, AP equals the sum over the
1-indexed positions of the concatenated context-then-backup list whose
id is relevant of `(relevant found so far) / rank`, divided by
`|all_true_ids|` (0 if that set is empty), and the per-question
reciprocal rank equals `1 / (rank of the first relevant position)`
(0 if no position is relevant). -/
theorem C6_ap_mrr (ev : List Evidence) (rd bd : List (Int × ℚ)) (vs : Vectorstore)
    (a : EvAnalysis) (h : check_evidence_retrieval ev rd bd (some vs) = some a) :
    a.ap = specAP (allTrueIdsSpec vs ev) (rd ++ bd) ∧
    a.mrr_score = specRR (allTrueIdsSpec vs ev) (rd ++ bd) := by
  obtain ⟨vs', hvs, ha⟩ := check_some_elim h
  obtain rfl : vs = vs' := by injection hvs
  subst ha
  have hwalk := apWalk_eq (allTrueIdsSpec vs ev) (rd ++ bd) 1 0 0 0 (le_refl 1)
  have hrec := checkRecord_ap_mrr vs ev rd bd
  constructor
  · rw [hrec.1, hwalk]
    by_cases hcard : (allTrueIdsSpec vs ev).card = 0
    · rw [specAP, if_pos hcard]
      simp [hcard]
    · rw [specAP, if_neg hcard, if_pos (by omega : (allTrueIdsSpec vs ev).card > 0)]
      congr 1
      show (0 : ℚ) + apRecSum (allTrueIdsSpec vs ev) (rd ++ bd) 1 0
        = specAPsum (allTrueIdsSpec vs ev) (rd ++ bd)
      rw [zero_add, show (1 : Nat) = 0 + 1 from rfl, apRecSum_eq_sum]
      unfold specAPsum
      apply Finset.sum_congr rfl
      intro i _
      simp
  · rw [hrec.2, hwalk]
    show (if (if (0 : Nat) = 0
            then firstRelRank (allTrueIdsSpec vs ev) (rd ++ bd) 1 else 0) > 0
          then 1 / (((if (0 : Nat) = 0
            then firstRelRank (allTrueIdsSpec vs ev) (rd ++ bd) 1 else 0) : Nat) : ℚ)
          else 0) = specRR (allTrueIdsSpec vs ev) (rd ++ bd)
    rw [if_pos (rfl : (0 : Nat) = 0)]
    rw [show (1 : Nat) = 0 + 1 from rfl, firstRelRank_eq]
    unfold specRR
    cases hfi : List.findIdx? (fun p => decide (p.1 ∈ allTrueIdsSpec vs ev)) (rd ++ bd) 0 with
    | none => simp [hfi]
    | some i => simp [hfi]

/-- Witness for C6 on the concrete corpus: AP and reciprocal rank both
equal their claim-side expressions there. -/
theorem C6_witness :
    evAnalysisW.ap = specAP (allTrueIdsSpec vsW evW) ([(1, 1)] ++ [(2, 1/2)]) ∧
    evAnalysisW.mrr_score = specRR (allTrueIdsSpec vsW evW) ([(1, 1)] ++ [(2, 1/2)]) :=
  C6_ap_mrr evW [(1, 1)] [(2, 1/2)] vsW evAnalysisW checkW_eq

/-! ### C7: batch aggregation -/

/-- The full (non-status) analyses stored in a results array, in order. -/
def analysisRecords (results : List (Option QuestionRecord)) : List EvAnalysis :=
  results.filterMap (fun r => r.bind (·.analysis))

/-- The analyses the aggregation loop treats as retrieval-eligible:
those with `total_evidence > 0`. -/
def eligibleAnalyses (results : List (Option QuestionRecord)) : List EvAnalysis :=
  (analysisRecords results).filter (fun a => decide (0 < a.hit_counts.total_evidence))

/-- The aggregation fold expressed through its six independent sums. -/
theorem aggregate_fold (results : List (Option QuestionRecord)) :
    ∀ s : AggState,
    results.foldl aggStep s =
      ⟨s.th + ((eligibleAnalyses results).map (·.hit_counts.context_hits)).sum,
       s.te + ((eligibleAnalyses results).map (·.hit_counts.total_evidence)).sum,
       s.mrrSum + ((analysisRecords results).map (·.mrr_score)).sum,
       s.apSum + ((analysisRecords results).map (·.ap)).sum,
       s.withAnalysis + (results.filterMap id).length,
       s.eligible + (eligibleAnalyses results).length⟩ := by
  induction results with
  | nil => intro s; simp [analysisRecords, eligibleAnalyses]
  | cons r rest ih =>
    intro s
    cases r with
    | none =>
      rw [List.foldl_cons]
      show rest.foldl aggStep s = _
      rw [ih s]
      simp [analysisRecords, eligibleAnalyses]
    | some q =>
      rw [List.foldl_cons]
      cases hq : q.analysis with
      | none =>
        have hstep : aggStep s (some q) =
            ⟨s.th, s.te, s.mrrSum, s.apSum, s.withAnalysis + 1, s.eligible⟩ := by
          simp [aggStep, hq]
        rw [hstep, ih]
        simp only [analysisRecords, eligibleAnalyses, List.filterMap_cons, Option.some_bind, hq,
          List.filter_cons, List.length_cons, List.map_cons, List.sum_cons, id_eq]
        rw [AggState.mk.injEq]
        exact ⟨rfl, rfl, rfl, rfl, by omega, rfl⟩
      | some a =>
        by_cases ht : 0 < a.hit_counts.total_evidence
        · have hstep : aggStep s (some q) =
              ⟨s.th + a.hit_counts.context_hits, s.te + a.hit_counts.total_evidence,
               s.mrrSum + a.mrr_score, s.apSum + a.ap, s.withAnalysis + 1, s.eligible + 1⟩ := by
            simp [aggStep, hq, ht]
          rw [hstep, ih]
          simp only [analysisRecords, eligibleAnalyses, List.filterMap_cons, Option.some_bind,
            hq, List.filter_cons, decide_eq_true ht, List.length_cons, List.map_cons,
            List.sum_cons, id_eq, if_true, eq_self_iff_true]
          rw [AggState.mk.injEq]
          refine ⟨?_, ?_, ?_, ?_, ?_, ?_⟩ <;> first | rfl | omega | ring
        · have hstep : aggStep s (some q) =
              ⟨s.th, s.te, s.mrrSum + a.mrr_score, s.apSum + a.ap,
               s.withAnalysis + 1, s.eligible⟩ := by
            simp [aggStep, hq, ht]
          rw [hstep, ih]
          simp only [analysisRecords, eligibleAnalyses, List.filterMap_cons, Option.some_bind,
            hq, List.filter_cons, decide_eq_false ht, List.length_cons, List.map_cons,
            List.sum_cons, id_eq, Bool.false_eq_true, if_false]
          rw [AggState.mk.injEq]
          refine ⟨?_, ?_, ?_, ?_, ?_, ?_⟩ <;> first | rfl | omega | ring

/-- Dropping terms that are zero outside the filter does not change a
sum. -/
theorem sum_eq_sum_filter_of_zero (f : EvAnalysis → ℚ) (p : EvAnalysis → Bool) :
    ∀ l : List EvAnalysis, (∀ a ∈ l, p a = false → f a = 0) →
    (l.map f).sum = ((l.filter p).map f).sum := by
  intro l
  induction l with
  | nil => intro _; simp
  | cons x xs ih =>
    intro h0
    rw [List.map_cons, List.sum_cons, List.filter_cons]
    cases hp : p x with
    | true =>
      rw [if_pos rfl, List.map_cons, List.sum_cons, ih (fun a ha => h0 a (List.mem_cons_of_mem x ha))]
    | false =>
      rw [h0 x (List.mem_cons_self x xs) hp, zero_add]
      simp only [Bool.false_eq_true, if_false]
      exact ih (fun a ha => h0 a (List.mem_cons_of_mem x ha))

theorem firstRelRank_empty : ∀ (l : List (Int × ℚ)) (r : Nat),
    firstRelRank (∅ : Finset Int) l r = 0 := by
  intro l
  induction l with
  | nil => intro r; rfl
  | cons hd rest ih =>
    intro r
    obtain ⟨d, sc⟩ := hd
    simp [firstRelRank, ih]

/-- Well-formedness of every produced analysis: `total_evidence` is
non-negative, and an analysis without any evidence-matched document id
contributes zero context hits, zero reciprocal rank and zero AP. -/
theorem check_wf (ev : List Evidence) (rd bd : List (Int × ℚ))
    (vs : Option Vectorstore) (a : EvAnalysis)
    (h : check_evidence_retrieval ev rd bd vs = some a) :
    0 ≤ a.hit_counts.total_evidence ∧
    (a.hit_counts.total_evidence ≤ 0 →
      a.hit_counts.context_hits = 0 ∧ a.mrr_score = 0 ∧ a.ap = 0) := by
  obtain ⟨vs', -, ha⟩ := check_some_elim h
  subst ha
  rw [checkRecord_hit_counts]
  dsimp only
  refine ⟨by omega, fun ht => ?_⟩
  have hcard : (allTrueIdsSpec vs' ev).card = 0 := by omega
  have hempty : allTrueIdsSpec vs' ev = ∅ := Finset.card_eq_zero.mp hcard
  have hrec := checkRecord_ap_mrr vs' ev rd bd
  refine ⟨?_, ?_, ?_⟩
  · have : ((rd.map Prod.fst).toFinset ∩ allTrueIdsSpec vs' ev) = ∅ := by
      rw [hempty, Finset.inter_empty]
    rw [this]
    simp
  · rw [hrec.2]
    have hwalk := apWalk_eq (allTrueIdsSpec vs' ev) (rd ++ bd) 1 0 0 0 (le_refl 1)
    rw [hwalk]
    show (if (if (0 : Nat) = 0
        then firstRelRank (allTrueIdsSpec vs' ev) (rd ++ bd) 1 else 0) > 0
      then _ else 0) = 0
    rw [if_pos (rfl : (0 : Nat) = 0), hempty, firstRelRank_empty]
    simp
  · rw [hrec.1, if_neg (by omega)]

/-! Claim-side aggregation over "questions with at least one piece of
evidence", modelled from the claim's words for comparison with the
code's aggregation. -/

/-- A record the claim counts as retrieval-eligible: its evidence list
is non-empty. -/
def claimEligible (q : QuestionRecord) : Bool :=
  !q.evidence_list.isEmpty

/-- Modelled from the claim's words: MRR averaged per-question over the
questions with at least one piece of evidence. -/
def claimAvgMRR (results : List (Option QuestionRecord)) : ℚ :=
  let el := (results.filterMap id).filter claimEligible
  if el.length = 0 then 0
  else ((el.map (fun q => ((q.analysis.map (·.mrr_score)).getD 0))).sum) / (el.length : ℚ)

/-- Modelled from the claim's words: MAP averaged per-question over the
questions with at least one piece of evidence. -/
def claimAvgMAP (results : List (Option QuestionRecord)) : ℚ :=
  let el := (results.filterMap id).filter claimEligible
  if el.length = 0 then 0
  else ((el.map (fun q => ((q.analysis.map (·.ap)).getD 0))).sum) / (el.length : ℚ)

/-- The analysis of a question whose single evidence item matches no
document: evidence present, but `total_evidence = 0`. -/
def analysisZ : EvAnalysis :=
  { evidence_to_doc_ids_map := [[]]
    context_doc_ids := {1}
    retrieved_pool_doc_ids := {1}
    hit_counts := ⟨0, 0, 0⟩
    ap := 0
    mrr_score := 0 }

/-- A question with one (unmatched) evidence item. -/
def qNoMatch : QuestionRecord :=
  ⟨"r1", "raw1", false, [⟨"zzzz", ""⟩], some analysisZ⟩

/-- A question with one matched evidence item (the witness analysis). -/
def qMatch : QuestionRecord :=
  ⟨"r2", "raw2", true, evW, some evAnalysisW⟩

/-- A completed results array with both questions. -/
def resultsCex : List (Option QuestionRecord) := [some qNoMatch, some qMatch]

/-- C7 counterexample: both questions carry one evidence item (so both
are "questions with evidence" in the claim's words), but the first
item matches no document; the aggregation divides MRR and MAP by the
number of questions with `total_evidence > 0` (here 1), not by the
number of questions with evidence (here 2), so the claim's averages
differ from the code's. -/
theorem C7_counterexample :
    check_evidence_retrieval [⟨"zzzz", ""⟩] [(1, 1)] [] (some vsW) = some analysisZ ∧
    check_evidence_retrieval evW [(1, 1)] [(2, 1/2)] (some vsW) = some evAnalysisW ∧
    claimEligible qNoMatch = true ∧ claimEligible qMatch = true ∧
    avgMRR resultsCex = 1 ∧ claimAvgMRR resultsCex = 1/2 ∧
    avgMAP resultsCex = 1 ∧ claimAvgMAP resultsCex = 1/2 := by
  refine ⟨by decide, checkW_eq, by decide, by decide, ?_, ?_, ?_, ?_⟩
  · norm_num [avgMRR, aggregateResults, aggStep, resultsCex, qNoMatch, qMatch, analysisZ,
      evAnalysisW]
  · norm_num [claimAvgMRR, claimEligible, resultsCex, qNoMatch, qMatch, analysisZ,
      evAnalysisW, evW, List.filterMap_cons, List.filterMap_nil, id_eq, List.filter_cons,
      List.filter_nil]
  · norm_num [avgMAP, aggregateResults, aggStep, resultsCex, qNoMatch, qMatch, analysisZ,
      evAnalysisW]
  · norm_num [claimAvgMAP, claimEligible, resultsCex, qNoMatch, qMatch, analysisZ,
      evAnalysisW, evW, List.filterMap_cons, List.filterMap_nil, id_eq, List.filter_cons,
      List.filter_nil]

/-- C7 (amended): over a completed results array whose analyses are
well formed (as every analyzer output is, see `check_wf`), the overall
recall is the single document-level ratio Σ`context_hits` /
Σ`total_evidence` over the retrieval-eligible questions — those whose
analysis has `total_evidence > 0`, i.e. at least one evidence-matched
document id (questions whose evidence matched nothing contribute zero
to both sums, so including them changes nothing) — and MRR and MAP are
the per-question `mrr_score` and `ap` averaged over exactly those
retrieval-eligible questions; questions without evidence never enter
any denominator. -/
theorem C7_aggregation (results : List (Option QuestionRecord))
    (hWF : ∀ a ∈ analysisRecords results,
      a.hit_counts.total_evidence ≤ 0 →
      a.hit_counts.context_hits = 0 ∧ a.mrr_score = 0 ∧ a.ap = 0) :
    overallRecall results =
      (if 0 < ((eligibleAnalyses results).map (·.hit_counts.total_evidence)).sum
       then ((((eligibleAnalyses results).map (·.hit_counts.context_hits)).sum : Int) : ℚ)
            / ((((eligibleAnalyses results).map (·.hit_counts.total_evidence)).sum : Int) : ℚ)
       else 0) ∧
    avgMRR results =
      (if 0 < (eligibleAnalyses results).length
       then ((eligibleAnalyses results).map (·.mrr_score)).sum
            / (((eligibleAnalyses results).length : Nat) : ℚ)
       else 0) ∧
    avgMAP results =
      (if 0 < (eligibleAnalyses results).length
       then ((eligibleAnalyses results).map (·.ap)).sum
            / (((eligibleAnalyses results).length : Nat) : ℚ)
       else 0) := by
  have hagg := aggregate_fold results ⟨0, 0, 0, 0, 0, 0⟩
  have hmrr0 : ∀ a ∈ analysisRecords results,
      (fun a => decide (0 < a.hit_counts.total_evidence)) a = false → a.mrr_score = 0 := by
    intro a ha hf
    exact (hWF a ha (by simpa using hf)).2.1
  have hap0 : ∀ a ∈ analysisRecords results,
      (fun a => decide (0 < a.hit_counts.total_evidence)) a = false → a.ap = 0 := by
    intro a ha hf
    exact (hWF a ha (by simpa using hf)).2.2
  refine ⟨?_, ?_, ?_⟩
  · unfold overallRecall aggregateResults
    rw [hagg]
    dsimp only
    rw [zero_add, zero_add]
  · unfold avgMRR aggregateResults
    rw [hagg]
    dsimp only
    rw [zero_add, zero_add,
      sum_eq_sum_filter_of_zero (·.mrr_score)
        (fun a => decide (0 < a.hit_counts.total_evidence)) (analysisRecords results) hmrr0]
    rfl
  · unfold avgMAP aggregateResults
    rw [hagg]
    dsimp only
    rw [zero_add, zero_add,
      sum_eq_sum_filter_of_zero (·.ap)
        (fun a => decide (0 < a.hit_counts.total_evidence)) (analysisRecords results) hap0]
    rfl

/-- Witness for C7 (amended) at the concrete two-question array: the
eligible set is the single matched question, so recall, MRR and MAP are
1/1, 1 and 1. -/
theorem C7_witness :
    overallRecall resultsCex =
      (if 0 < ((eligibleAnalyses resultsCex).map (·.hit_counts.total_evidence)).sum
       then ((((eligibleAnalyses resultsCex).map (·.hit_counts.context_hits)).sum : Int) : ℚ)
            / ((((eligibleAnalyses resultsCex).map (·.hit_counts.total_evidence)).sum : Int) : ℚ)
       else 0) ∧
    avgMRR resultsCex =
      (if 0 < (eligibleAnalyses resultsCex).length
       then ((eligibleAnalyses resultsCex).map (·.mrr_score)).sum
            / (((eligibleAnalyses resultsCex).length : Nat) : ℚ)
       else 0) ∧
    avgMAP resultsCex =
      (if 0 < (eligibleAnalyses resultsCex).length
       then ((eligibleAnalyses resultsCex).map (·.ap)).sum
            / (((eligibleAnalyses resultsCex).length : Nat) : ℚ)
       else 0) :=
  C7_aggregation resultsCex (by decide)
